import Mathlib

/-!
# Verification of the Catan-online game engine core

Shallow embedding of `src/api-projects/catan/src/game/catan-core.ts`
(the engine variant with snake setup order, snapshot export/import and the
4:1 trading service, i.e. the code at the line ranges cited by the claims)
and of the board geometry builder in
`src/api-projects/catan/src/game/random-seed.ts`.

Modelling conventions:
* JavaScript `Map`s are association lists in insertion order; `Map.set`
  updates the first matching key in place or appends a fresh entry,
  `Map.get` returns the first matching value.
* JavaScript `Set`s are duplicate-free lists in insertion order.
* `ResourceBundle` (a record of resource kind → count) is a structure with
  one `Nat` field per resource kind; an absent key in the TS record reads
  as `0` (`?? 0`), which is exactly the structure with 0 in that field.
  Counts are natural numbers: ledgers never hold negative counts.
* Thrown exceptions are `Except.error`; a JS `TypeError` caused by the
  non-null assertion `players.get(ownerId)!` on a missing player is
  modelled as `Option.none` in `distributeFor`.
* `Math.random()`-driven choices are modelled by an extra `pick : Nat`
  argument; the source draws `Math.floor(random * n) ∈ [0, n)`, which the
  model realises as `pick % n`.
* JS truthiness on owner strings is modelled exactly: `if (owner)` skips
  `null`/`undefined` and the empty string, while the placement guards use
  `(get(..) ?? null) !== null`, which treats the empty string as an owner.
-/

/-! ## Resource kinds and bundles (`catan-core-types.ts`) -/

inductive ResourceType where
  | Brick | Lumber | Wool | Grain | Ore | Desert
deriving DecidableEq, Repr

/-- The record key order of `EMPTY_BUNDLE()` and of `Object.values(ResourceType)`:
Brick, Lumber, Wool, Grain, Ore, Desert. -/
def allResourceKinds : List ResourceType :=
  [.Brick, .Lumber, .Wool, .Grain, .Ore, .Desert]

/-- A resource record: one non-negative count per resource kind. -/
structure ResourceBundle where
  brick : Nat
  lumber : Nat
  wool : Nat
  grain : Nat
  ore : Nat
  desert : Nat
deriving DecidableEq, Repr

def ResourceBundle.get (b : ResourceBundle) : ResourceType → Nat
  | .Brick => b.brick
  | .Lumber => b.lumber
  | .Wool => b.wool
  | .Grain => b.grain
  | .Ore => b.ore
  | .Desert => b.desert

def ResourceBundle.setKind (b : ResourceBundle) : ResourceType → Nat → ResourceBundle
  | .Brick, v => { b with brick := v }
  | .Lumber, v => { b with lumber := v }
  | .Wool, v => { b with wool := v }
  | .Grain, v => { b with grain := v }
  | .Ore, v => { b with ore := v }
  | .Desert, v => { b with desert := v }

/-- `EMPTY_BUNDLE()`. -/
def emptyBundle : ResourceBundle := ⟨0, 0, 0, 0, 0, 0⟩

/-- `addBundles(target, delta)`: adds per kind, skipping Desert. -/
def addBundles (a b : ResourceBundle) : ResourceBundle :=
  { brick := a.brick + b.brick, lumber := a.lumber + b.lumber,
    wool := a.wool + b.wool, grain := a.grain + b.grain,
    ore := a.ore + b.ore, desert := a.desert }

/-- `subBundles(target, delta)`: subtracts per kind, skipping Desert.
Callers only subtract under an availability guard, so `Nat` subtraction
is exact at every use site. -/
def subBundles (a b : ResourceBundle) : ResourceBundle :=
  { brick := a.brick - b.brick, lumber := a.lumber - b.lumber,
    wool := a.wool - b.wool, grain := a.grain - b.grain,
    ore := a.ore - b.ore, desert := a.desert }

/-- `bundleCount(bundle)`: total cards, skipping Desert. -/
def bundleCount (b : ResourceBundle) : Nat :=
  b.brick + b.lumber + b.wool + b.grain + b.ore

@[simp] theorem get_setKind (b : ResourceBundle) (k k' : ResourceType) (v : Nat) :
    (b.setKind k v).get k' = if k' = k then v else b.get k' := by
  cases k <;> cases k' <;> simp [ResourceBundle.get, ResourceBundle.setKind]

theorem bundle_ext (a b : ResourceBundle) (h : ∀ k, a.get k = b.get k) : a = b := by
  cases a; cases b
  have h1 := h .Brick; have h2 := h .Lumber; have h3 := h .Wool
  have h4 := h .Grain; have h5 := h .Ore; have h6 := h .Desert
  simp_all [ResourceBundle.get]

/-! ## Tiles and board types -/

abbrev TileId := String
abbrev NodeId := String

structure Tile where
  id : TileId
  resource : ResourceType
  numberToken : Option Nat
deriving DecidableEq, Repr

/-- A deduplicated corner node produced by the geometry builder. -/
structure NodeDef where
  id : NodeId
  adjacentTiles : List TileId
  neighborNodes : List NodeId
  anchorTileId : TileId
  cornerIndex : Nat
deriving DecidableEq, Repr

/-! ## Geometry builder (`random-seed.ts`)

The source computes corner positions of flat-top hexes in floating point
(`axialToPixel`, `hexCornerOffset` at angles `60°·i`) and dedupes corners
by the rounded key `(round(x·1000), round(y·1000))` with hex size 100.
At those angles the exact coordinates are `x = 150·q + 100·cos(60°·i)`
with `cos ∈ {±1, ±1/2}` — an integer — and
`y = √3·(100·r + 50·q + 100·sin(60°·i)/√3)` with `100·sin(60°·i) ∈ {0, ±50·√3}`,
i.e. `y = √3·m` for an integer `m`. Distinct exact corners differ by at
least 50 in `x` or `50·√3` in `y`, while the double-precision error is
below `10⁻⁸`, so the float keys of the source agree exactly with the
integer pair `(x, m)` used here. -/

/-- `100·cos(60°·i)` for corner index i = 0..5 (flat-top hex, size 100). -/
def cornerXOffsets : List Int := [100, 50, -50, -100, -50, 50]

/-- `100·sin(60°·i) / √3` for corner index i = 0..5. -/
def cornerMOffsets : List Int := [0, 50, 50, 0, -50, -50]

/-- Exact corner key of corner `ci` of the tile at axial `(q, r)`:
the pair `(x, y/√3)` of the pixel position with size 100. -/
def cornerKey (q r : Int) (ci : Nat) : Int × Int :=
  (150 * q + cornerXOffsets.getD ci 0, 100 * r + 50 * q + cornerMOffsets.getD ci 0)

/-- `generateAxialCenters(2)` before sorting: q from -2 to 2, r from
`max(-2, -q-2)` to `min(2, -q+2)`, in generation order. -/
def axialCentersUnsorted : List (Int × Int) :=
  ((List.range 5).map (fun i => (i : Int) - 2)).flatMap (fun q =>
    let r1 : Int := max (-2) (-q - 2)
    let r2 : Int := min 2 (-q + 2)
    (List.range (r2 - r1 + 1).toNat).map (fun j => (q, r1 + (j : Int))))

/-- Stable insertion of `x` into `l` before the first element `y` with
`le x y` false... keeping equal keys in original order (JS `sort` with a
comparator is stable for these distinct keys anyway). -/
def insertSorted (le : α → α → Bool) (x : α) : List α → List α
  | [] => [x]
  | y :: ys => if le x y then x :: y :: ys else y :: insertSorted le x ys

/-- Stable insertion sort, used for the source's `Array.prototype.sort`. -/
def sortByLe (le : α → α → Bool) (l : List α) : List α :=
  l.foldr (insertSorted le) []

/-- The comparator `a.r - b.r || a.q - b.q` (row-major: r ascending then q). -/
def centerLe (a b : Int × Int) : Bool :=
  a.2 < b.2 || (a.2 = b.2 && a.1 ≤ b.1)

/-- `generateAxialCenters(2)`, sorted row-wise. -/
def generateAxialCenters : List (Int × Int) :=
  sortByLe centerLe axialCentersUnsorted

/-- `RESOURCE_POOL` with the Desert entry filtered out (`_nonDesert`). -/
def nonDesertPool : List ResourceType :=
  [.Brick, .Brick, .Brick,
   .Lumber, .Lumber, .Lumber, .Lumber,
   .Wool, .Wool, .Wool, .Wool,
   .Grain, .Grain, .Grain, .Grain,
   .Ore, .Ore, .Ore]

/-- `NUMBER_TOKENS`. -/
def numberTokenPool : List Nat :=
  [5, 2, 6, 3, 8, 10, 9, 12, 11, 4, 8, 10, 9, 4, 5, 6, 3, 11]

def tileIdOf (i : Nat) : TileId := "T" ++ toString (i + 1)

/-- The loop body of `buildStandard19Tiles`: walks the sorted centers with
the running tile index `i`, the `_ndIdx` resource-pool cursor and the
`nIdx` number-token cursor. The center tile `(0,0)` is the Desert with no
token; every other tile takes the next pool resource and token. -/
def buildTilesGo : List (Int × Int) → Nat → Nat → Nat → List (Tile × (Int × Int))
  | [], _, _, _ => []
  | c :: rest, i, ndIdx, nIdx =>
    if c.1 = 0 ∧ c.2 = 0 then
      (⟨tileIdOf i, .Desert, none⟩, c) :: buildTilesGo rest (i + 1) ndIdx nIdx
    else
      (⟨tileIdOf i, nonDesertPool.getD (ndIdx % nonDesertPool.length) .Brick,
        some (numberTokenPool.getD nIdx 0)⟩, c) :: buildTilesGo rest (i + 1) (ndIdx + 1) (nIdx + 1)

/-- `buildStandard19Tiles()`: tiles together with their axial centers
(the source returns `axialById`, a record keyed by tile id; the pairing
carries the same information). -/
def standardTilesWithAxial : List (Tile × (Int × Int)) :=
  buildTilesGo generateAxialCenters 0 0 0

def standard19Tiles : List Tile := standardTilesWithAxial.map Prod.fst

/-! ### `buildNodesFromTiles` -/

/-- Mutable state of the node builder: corner-key map to node sequence
number, per-node anchor info in creation order, next sequence number,
per-node adjacent tile sets and neighbor sets (JS `Set`s as dedup lists). -/
structure GeoState where
  cornerMap : List ((Int × Int) × Nat)
  anchors : List (Nat × TileId × Nat)
  nodeSeq : Nat
  nodeTiles : List (Nat × List TileId)
  nodeNeighbors : List (Nat × List Nat)
deriving Repr

def lookupA [DecidableEq α] : List (α × β) → α → Option β
  | [], _ => none
  | e :: rest, k => if e.1 = k then some e.2 else lookupA rest k

/-- Append `v` to the dedup list stored at key `k` (creating the entry if
missing): models `Set.add` on a map of sets. -/
def addToSetAt [DecidableEq α] [DecidableEq β] : List (α × List β) → α → β → List (α × List β)
  | [], k, v => [(k, [v])]
  | (k', l) :: rest, k, v =>
    if k' = k then (k', if v ∈ l then l else l ++ [v]) :: rest
    else (k', l) :: addToSetAt rest k v

/-- Look up the node of a corner key, creating a fresh node (with anchor
`tile.id, ci`) when the key is unseen; always records the tile in the
node's adjacent-tile set. Returns the node's sequence number. -/
def visitCorner (st : GeoState) (tid : TileId) (ci : Nat) (key : Int × Int) :
    GeoState × Nat :=
  match lookupA st.cornerMap key with
  | some seqNo =>
    ({ st with nodeTiles := addToSetAt st.nodeTiles seqNo tid }, seqNo)
  | none =>
    let seqNo := st.nodeSeq
    ({ st with
        cornerMap := st.cornerMap ++ [(key, seqNo)],
        anchors := st.anchors ++ [(seqNo, tid, ci)],
        nodeSeq := seqNo + 1,
        nodeTiles := addToSetAt st.nodeTiles seqNo tid,
        nodeNeighbors := st.nodeNeighbors ++ [(seqNo, [])] }, seqNo)

/-- Process the six corners of one tile, collecting their node numbers. -/
def visitCorners (st : GeoState) (tid : TileId) (q r : Int) :
    GeoState × List Nat :=
  (List.range 6).foldl
    (fun (acc : GeoState × List Nat) ci =>
      let (st', seqNo) := visitCorner acc.1 tid ci (cornerKey q r ci)
      (st', acc.2 ++ [seqNo]))
    (st, [])

/-- Connect ring neighbors around one tile: corner `i` with corner `(i+1) % 6`,
in both directions. -/
def connectRing (st : GeoState) (corners : List Nat) : GeoState :=
  (List.range 6).foldl
    (fun st i =>
      let a := corners.getD i 0
      let b := corners.getD ((i + 1) % 6) 0
      { st with nodeNeighbors := addToSetAt (addToSetAt st.nodeNeighbors a b) b a })
    st

def processTile (st : GeoState) (t : Tile × (Int × Int)) : GeoState :=
  let (st', corners) := visitCorners st t.1.id t.2.1 t.2.2
  connectRing st' corners

def nodeIdOf (seqNo : Nat) : NodeId := "N" ++ toString seqNo

/-- `buildNodesFromTiles(tiles, axialById)`: fold all tiles, then emit
`NodeDef`s sorted by numeric node id (the source sorts the map values by
`Number(id.slice(1))`; node ids here carry their sequence number, so the
sort key is the sequence number) with neighbor lists sorted numerically. -/
def buildNodesFromTiles (tiles : List (Tile × (Int × Int))) : List NodeDef :=
  let st := tiles.foldl processTile
    ({ cornerMap := [], anchors := [],
       nodeSeq := 1, nodeTiles := [], nodeNeighbors := [] } : GeoState)
  (sortByLe (fun a b => a.1 ≤ b.1) st.anchors).map (fun info =>
    { id := nodeIdOf info.1,
      adjacentTiles := (lookupA st.nodeTiles info.1).getD [],
      neighborNodes :=
        (sortByLe (· ≤ ·) ((lookupA st.nodeNeighbors info.1).getD [])).map nodeIdOf,
      anchorTileId := info.2.1,
      cornerIndex := info.2.2 })

/-- `standard19Nodes`. -/
def standard19Nodes : List NodeDef := buildNodesFromTiles standardTilesWithAxial
/-- The output of the geometry builder, spelled out (proved equal to
`standard19Nodes` in `standard19Nodes_eq`); later concrete evaluations use
this literal to keep kernel reduction cheap. -/
def stdNodesLit : List NodeDef :=
  [{ id := "N1", adjacentTiles := ["T1", "T2"], neighborNodes := ["N2", "N6", "N10"], anchorTileId := "T1", cornerIndex := 0 },
   { id := "N2", adjacentTiles := ["T1", "T2", "T5"], neighborNodes := ["N1", "N3", "N9"], anchorTileId := "T1", cornerIndex := 1 },
   { id := "N3", adjacentTiles := ["T1", "T4", "T5"], neighborNodes := ["N2", "N4", "N15"], anchorTileId := "T1", cornerIndex := 2 },
   { id := "N4", adjacentTiles := ["T1", "T4"], neighborNodes := ["N3", "N5", "N18"], anchorTileId := "T1", cornerIndex := 3 },
   { id := "N5", adjacentTiles := ["T1"], neighborNodes := ["N4", "N6"], anchorTileId := "T1", cornerIndex := 4 },
   { id := "N6", adjacentTiles := ["T1"], neighborNodes := ["N1", "N5"], anchorTileId := "T1", cornerIndex := 5 },
   { id := "N7", adjacentTiles := ["T2", "T3"], neighborNodes := ["N8", "N10", "N14"], anchorTileId := "T2", cornerIndex := 0 },
   { id := "N8", adjacentTiles := ["T2", "T3", "T6"], neighborNodes := ["N7", "N9", "N13"], anchorTileId := "T2", cornerIndex := 1 },
   { id := "N9", adjacentTiles := ["T2", "T5", "T6"], neighborNodes := ["N2", "N8", "N19"], anchorTileId := "T2", cornerIndex := 2 },
   { id := "N10", adjacentTiles := ["T2"], neighborNodes := ["N1", "N7"], anchorTileId := "T2", cornerIndex := 5 },
   { id := "N11", adjacentTiles := ["T3"], neighborNodes := ["N12", "N14"], anchorTileId := "T3", cornerIndex := 0 },
   { id := "N12", adjacentTiles := ["T3", "T7"], neighborNodes := ["N11", "N13", "N23"], anchorTileId := "T3", cornerIndex := 1 },
   { id := "N13", adjacentTiles := ["T3", "T6", "T7"], neighborNodes := ["N8", "N12", "N21"], anchorTileId := "T3", cornerIndex := 2 },
   { id := "N14", adjacentTiles := ["T3"], neighborNodes := ["N7", "N11"], anchorTileId := "T3", cornerIndex := 5 },
   { id := "N15", adjacentTiles := ["T4", "T5", "T9"], neighborNodes := ["N3", "N16", "N20"], anchorTileId := "T4", cornerIndex := 1 },
   { id := "N16", adjacentTiles := ["T4", "T8", "T9"], neighborNodes := ["N15", "N17", "N26"], anchorTileId := "T4", cornerIndex := 2 },
   { id := "N17", adjacentTiles := ["T4", "T8"], neighborNodes := ["N16", "N18", "N29"], anchorTileId := "T4", cornerIndex := 3 },
   { id := "N18", adjacentTiles := ["T4"], neighborNodes := ["N4", "N17"], anchorTileId := "T4", cornerIndex := 4 },
   { id := "N19", adjacentTiles := ["T5", "T6", "T10"], neighborNodes := ["N9", "N20", "N22"], anchorTileId := "T5", cornerIndex := 1 },
   { id := "N20", adjacentTiles := ["T5", "T9", "T10"], neighborNodes := ["N15", "N19", "N30"], anchorTileId := "T5", cornerIndex := 2 },
   { id := "N21", adjacentTiles := ["T6", "T7", "T11"], neighborNodes := ["N13", "N22", "N25"], anchorTileId := "T6", cornerIndex := 1 },
   { id := "N22", adjacentTiles := ["T6", "T10", "T11"], neighborNodes := ["N19", "N21", "N32"], anchorTileId := "T6", cornerIndex := 2 },
   { id := "N23", adjacentTiles := ["T7"], neighborNodes := ["N12", "N24"], anchorTileId := "T7", cornerIndex := 0 },
   { id := "N24", adjacentTiles := ["T7", "T12"], neighborNodes := ["N23", "N25", "N36"], anchorTileId := "T7", cornerIndex := 1 },
   { id := "N25", adjacentTiles := ["T7", "T11", "T12"], neighborNodes := ["N21", "N24", "N34"], anchorTileId := "T7", cornerIndex := 2 },
   { id := "N26", adjacentTiles := ["T8", "T9", "T13"], neighborNodes := ["N16", "N27", "N31"], anchorTileId := "T8", cornerIndex := 1 },
   { id := "N27", adjacentTiles := ["T8", "T13"], neighborNodes := ["N26", "N28", "N41"], anchorTileId := "T8", cornerIndex := 2 },
   { id := "N28", adjacentTiles := ["T8"], neighborNodes := ["N27", "N29"], anchorTileId := "T8", cornerIndex := 3 },
   { id := "N29", adjacentTiles := ["T8"], neighborNodes := ["N17", "N28"], anchorTileId := "T8", cornerIndex := 4 },
   { id := "N30", adjacentTiles := ["T9", "T10", "T14"], neighborNodes := ["N20", "N31", "N33"], anchorTileId := "T9", cornerIndex := 1 },
   { id := "N31", adjacentTiles := ["T9", "T13", "T14"], neighborNodes := ["N26", "N30", "N39"], anchorTileId := "T9", cornerIndex := 2 },
   { id := "N32", adjacentTiles := ["T10", "T11", "T15"], neighborNodes := ["N22", "N33", "N35"], anchorTileId := "T10", cornerIndex := 1 },
   { id := "N33", adjacentTiles := ["T10", "T14", "T15"], neighborNodes := ["N30", "N32", "N42"], anchorTileId := "T10", cornerIndex := 2 },
   { id := "N34", adjacentTiles := ["T11", "T12", "T16"], neighborNodes := ["N25", "N35", "N38"], anchorTileId := "T11", cornerIndex := 1 },
   { id := "N35", adjacentTiles := ["T11", "T15", "T16"], neighborNodes := ["N32", "N34", "N44"], anchorTileId := "T11", cornerIndex := 2 },
   { id := "N36", adjacentTiles := ["T12"], neighborNodes := ["N24", "N37"], anchorTileId := "T12", cornerIndex := 0 },
   { id := "N37", adjacentTiles := ["T12"], neighborNodes := ["N36", "N38"], anchorTileId := "T12", cornerIndex := 1 },
   { id := "N38", adjacentTiles := ["T12", "T16"], neighborNodes := ["N34", "N37", "N46"], anchorTileId := "T12", cornerIndex := 2 },
   { id := "N39", adjacentTiles := ["T13", "T14", "T17"], neighborNodes := ["N31", "N40", "N43"], anchorTileId := "T13", cornerIndex := 1 },
   { id := "N40", adjacentTiles := ["T13", "T17"], neighborNodes := ["N39", "N41", "N50"], anchorTileId := "T13", cornerIndex := 2 },
   { id := "N41", adjacentTiles := ["T13"], neighborNodes := ["N27", "N40"], anchorTileId := "T13", cornerIndex := 3 },
   { id := "N42", adjacentTiles := ["T14", "T15", "T18"], neighborNodes := ["N33", "N43", "N45"], anchorTileId := "T14", cornerIndex := 1 },
   { id := "N43", adjacentTiles := ["T14", "T17", "T18"], neighborNodes := ["N39", "N42", "N48"], anchorTileId := "T14", cornerIndex := 2 },
   { id := "N44", adjacentTiles := ["T15", "T16", "T19"], neighborNodes := ["N35", "N45", "N47"], anchorTileId := "T15", cornerIndex := 1 },
   { id := "N45", adjacentTiles := ["T15", "T18", "T19"], neighborNodes := ["N42", "N44", "N51"], anchorTileId := "T15", cornerIndex := 2 },
   { id := "N46", adjacentTiles := ["T16"], neighborNodes := ["N38", "N47"], anchorTileId := "T16", cornerIndex := 1 },
   { id := "N47", adjacentTiles := ["T16", "T19"], neighborNodes := ["N44", "N46", "N53"], anchorTileId := "T16", cornerIndex := 2 },
   { id := "N48", adjacentTiles := ["T17", "T18"], neighborNodes := ["N43", "N49", "N52"], anchorTileId := "T17", cornerIndex := 1 },
   { id := "N49", adjacentTiles := ["T17"], neighborNodes := ["N48", "N50"], anchorTileId := "T17", cornerIndex := 2 },
   { id := "N50", adjacentTiles := ["T17"], neighborNodes := ["N40", "N49"], anchorTileId := "T17", cornerIndex := 3 },
   { id := "N51", adjacentTiles := ["T18", "T19"], neighborNodes := ["N45", "N52", "N54"], anchorTileId := "T18", cornerIndex := 1 },
   { id := "N52", adjacentTiles := ["T18"], neighborNodes := ["N48", "N51"], anchorTileId := "T18", cornerIndex := 2 },
   { id := "N53", adjacentTiles := ["T19"], neighborNodes := ["N47", "N54"], anchorTileId := "T19", cornerIndex := 1 },
   { id := "N54", adjacentTiles := ["T19"], neighborNodes := ["N51", "N53"], anchorTileId := "T19", cornerIndex := 2 }]

/-- The default tile layout, spelled out (proved equal to
`standard19Tiles` in `standard19Tiles_eq`). -/
def stdTilesLit : List Tile :=
  [{ id := "T1", resource := ResourceType.Brick, numberToken := some 5 },
   { id := "T2", resource := ResourceType.Brick, numberToken := some 2 },
   { id := "T3", resource := ResourceType.Brick, numberToken := some 6 },
   { id := "T4", resource := ResourceType.Lumber, numberToken := some 3 },
   { id := "T5", resource := ResourceType.Lumber, numberToken := some 8 },
   { id := "T6", resource := ResourceType.Lumber, numberToken := some 10 },
   { id := "T7", resource := ResourceType.Lumber, numberToken := some 9 },
   { id := "T8", resource := ResourceType.Wool, numberToken := some 12 },
   { id := "T9", resource := ResourceType.Wool, numberToken := some 11 },
   { id := "T10", resource := ResourceType.Desert, numberToken := none },
   { id := "T11", resource := ResourceType.Wool, numberToken := some 4 },
   { id := "T12", resource := ResourceType.Wool, numberToken := some 8 },
   { id := "T13", resource := ResourceType.Grain, numberToken := some 10 },
   { id := "T14", resource := ResourceType.Grain, numberToken := some 9 },
   { id := "T15", resource := ResourceType.Grain, numberToken := some 4 },
   { id := "T16", resource := ResourceType.Grain, numberToken := some 5 },
   { id := "T17", resource := ResourceType.Ore, numberToken := some 6 },
   { id := "T18", resource := ResourceType.Ore, numberToken := some 3 },
   { id := "T19", resource := ResourceType.Ore, numberToken := some 11 }]

set_option maxRecDepth 100000 in
theorem standard19Nodes_eq : standard19Nodes = stdNodesLit := by decide

set_option maxRecDepth 100000 in
theorem standard19Tiles_eq : standard19Tiles = stdTilesLit := by decide

/-! ## Engine state (`catan-core.ts`) -/

inductive TurnPhase where
  | setupPlacement | awaitingRoll | awaitingActions | awaitingRobberMove
deriving DecidableEq, Repr

/-- A player as created by `addPlayer` (the snake-order engine stores
id, name, resources, settlement set and victory points). -/
structure PlayerState where
  id : String
  name : String
  resources : ResourceBundle
  settlements : List NodeId
  victoryPoints : Nat
deriving DecidableEq, Repr

def dummyPlayer : PlayerState := ⟨"", "", emptyBundle, [], 0⟩

/-- All private fields of class `CatanEngine`. -/
structure EngineState where
  tiles : List Tile
  bank : ResourceBundle
  players : List PlayerState
  currentPlayerOrder : List String
  currentIdx : Nat
  robberOn : TileId
  turn : Nat
  phase : TurnPhase
  setupRound : Nat
  setupDirection : Int
  nodeOwnership : List (NodeId × Option String)
  nodeAdjacentTiles : List (NodeId × List TileId)
  nodeNeighbors : List (NodeId × List NodeId)
  nodeAnchors : List (NodeId × TileId × Nat)
  tileToNodes : List (TileId × List NodeId)
deriving DecidableEq, Repr

/-! ### Map and player helpers -/

/-- `Map.set`: update the first entry with this key in place, else append. -/
def setA [DecidableEq α] : List (α × β) → α → β → List (α × β)
  | [], k, v => [(k, v)]
  | (k', v') :: rest, k, v =>
    if k' = k then (k, v) :: rest else (k', v') :: setA rest k v

/-- `players.get(pid)` (first match). -/
def findPlayer : List PlayerState → String → Option PlayerState
  | [], _ => none
  | p :: rest, pid => if p.id = pid then some p else findPlayer rest pid

/-- In-place mutation of the player object held by the map: rewrite the
first entry whose id matches; a miss leaves the list unchanged. -/
def updateFirst : List PlayerState → String → (PlayerState → PlayerState) → List PlayerState
  | [], _, _ => []
  | p :: rest, pid, f =>
    if p.id = pid then f p :: rest else p :: updateFirst rest pid f

/-- `(this.nodeOwnership.get(n) ?? null)`: an unknown node reads as
unowned. -/
def ownerNN (s : EngineState) (n : NodeId) : Option String :=
  (lookupA s.nodeOwnership n).getD none

/-- `this.nodeNeighbors.get(n) ?? []`. -/
def neighborsOf (s : EngineState) (n : NodeId) : List NodeId :=
  (lookupA s.nodeNeighbors n).getD []

/-- JS truthiness of `string | null`: `null`, `undefined` and `""` are
falsy. -/
def truthyOwner : Option String → Bool
  | none => false
  | some o => o ≠ ""

/-- `get currentPlayer()`: `order[idx]` then `players.get(id) ?? null`
(an out-of-range index reads as `undefined`, so the result is `null`). -/
def currentPlayerOf (s : EngineState) : Option PlayerState :=
  (s.currentPlayerOrder.get? s.currentIdx).bind (findPlayer s.players)

/-! ### Constructor -/

/-- `tileToNodes` reverse index: for every node in `nodeAdjacentTiles`
order, push the node onto each adjacent tile's list (entry created at the
tile's first appearance). -/
def addTileNode : List (TileId × List NodeId) → TileId → NodeId → List (TileId × List NodeId)
  | [], tid, nid => [(tid, [nid])]
  | (t, l) :: rest, tid, nid =>
    if t = tid then (t, l ++ [nid]) :: rest else (t, l) :: addTileNode rest tid nid

def buildTileToNodes (adj : List (NodeId × List TileId)) : List (TileId × List NodeId) :=
  adj.foldl (fun m nt => nt.2.foldl (fun m tid => addTileNode m tid nt.1) m) []

/-- Default bank: 19 of each producing kind. -/
def defaultBank : ResourceBundle := ⟨19, 19, 19, 19, 19, 0⟩

/-- `new CatanEngine(rng, trader, config?)`. Returns `none` when the tile
list is empty (the source then crashes on `this.tiles[0].id`). The
geometry maps are always seeded from `standard19Nodes`, whatever
`config.tiles` says. -/
def engineNew (tilesCfg : Option (List Tile)) (bankCfg : Option ResourceBundle) :
    Option EngineState :=
  let tiles := tilesCfg.getD standard19Tiles
  match ((tiles.find? (fun t => t.resource == .Desert)).map Tile.id).orElse
      (fun _ => tiles.head?.map Tile.id) with
  | none => none
  | some rob =>
    some { tiles := tiles,
           bank := bankCfg.getD defaultBank,
           players := [],
           currentPlayerOrder := [],
           currentIdx := 0,
           robberOn := rob,
           turn := 0,
           phase := .setupPlacement,
           setupRound := 1,
           setupDirection := 1,
           nodeOwnership := standard19Nodes.map (fun n => (n.id, none)),
           nodeAdjacentTiles := standard19Nodes.map (fun n => (n.id, n.adjacentTiles)),
           nodeNeighbors := standard19Nodes.map (fun n => (n.id, n.neighborNodes)),
           nodeAnchors := standard19Nodes.map (fun n => (n.id, n.anchorTileId, n.cornerIndex)),
           tileToNodes := buildTileToNodes (standard19Nodes.map (fun n => (n.id, n.adjacentTiles))) }

/-! ### Lifecycle -/

/-- `addPlayer(id, name)`. -/
def addPlayer (s : EngineState) (pid pname : String) : Except String EngineState :=
  if (findPlayer s.players pid).isSome then .error "Player id exists."
  else
    let players := s.players ++ [⟨pid, pname, emptyBundle, [], 0⟩]
    .ok { s with players := players,
                 currentPlayerOrder := players.map PlayerState.id }

/-- `startGame(firstPlayerId?)`; both guards on `firstPlayerId` are
truthiness tests, so `undefined` and `""` mean "no first player". -/
def startGame (s : EngineState) (firstPlayerId : Option String) : Except String EngineState :=
  if s.players.length < 2 then .error "Need at least 2 players."
  else if truthyOwner firstPlayerId ∧ (findPlayer s.players (firstPlayerId.getD "")).isNone then
    .error "Unknown first player."
  else
    let order :=
      if truthyOwner firstPlayerId then
        let order := s.players.map PlayerState.id
        let idx := order.indexOf (firstPlayerId.getD "")
        order.drop idx ++ order.take idx
      else s.currentPlayerOrder
    .ok { s with currentPlayerOrder := order, turn := 1, currentIdx := 0,
                 phase := .setupPlacement, setupRound := 1, setupDirection := 1 }

/-! ### Setup placement -/

/-- `getAvailableSettlementSpots()`: iterate the ownership map; skip
truthy owners (NB: the empty string is falsy); skip nodes with an owned
(`!== null`) neighbor. -/
def getAvailableSettlementSpots (s : EngineState) : List NodeId :=
  s.nodeOwnership.filterMap (fun e =>
    if truthyOwner e.2 then none
    else if (neighborsOf s e.1).any (fun n => ownerNN s n ≠ none) then none
    else some e.1)

/-- `JS Set.add`. -/
def addSet (l : List NodeId) (n : NodeId) : List NodeId :=
  if n ∈ l then l else l ++ [n]

/-- `placeInitialSettlement(playerId, nodeId)`: free setup placement plus
the snake-pointer advance. Throws outside `setupPlacement`, on an unknown
player, an occupied spot or a distance-rule violation. -/
def placeInitialSettlement (s : EngineState) (pid : String) (nid : NodeId) :
    Except String EngineState :=
  if s.phase ≠ .setupPlacement then .error "Not in setup phase."
  else match findPlayer s.players pid with
  | none => .error "Unknown player."
  | some _ =>
    if ownerNN s nid ≠ none then .error "Spot occupied."
    else if (neighborsOf s nid).any (fun n => ownerNN s n ≠ none) then
      .error "Too close to another settlement."
    else
      let s1 := { s with
        nodeOwnership := setA s.nodeOwnership nid (some pid),
        players := updateFirst s.players pid (fun q =>
          { q with settlements := addSet q.settlements nid,
                   victoryPoints := q.victoryPoints + 1 }) }
      let lastIndex := s.currentPlayerOrder.length - 1
      .ok (if s.setupRound = 1 then
             if s.currentIdx = lastIndex then
               { s1 with setupRound := 2, setupDirection := -1 }
             else { s1 with currentIdx := s.currentIdx + 1 }
           else
             if s.currentIdx = 0 then
               { s1 with phase := .awaitingRoll, currentIdx := 0 }
             else { s1 with currentIdx := s.currentIdx - 1 })

/-! ### Trading service (`FourToOneTradingService`) -/

/-- `hasResources(player, bundle)`: no kind of the bundle exceeds the
player's holdings (absent keys read as 0 on both sides). -/
def hasResources (p : PlayerState) (bundle : ResourceBundle) : Bool :=
  allResourceKinds.all (fun k => !(p.resources.get k < bundle.get k))

/-- `Object.entries(b).filter(([_, v]) => (v ?? 0) > 0)` in the record key
order Brick, Lumber, Wool, Grain, Ore, Desert. -/
def listPositives (b : ResourceBundle) : List (ResourceType × Nat) :=
  allResourceKinds.filterMap (fun k =>
    if 0 < b.get k then some (k, b.get k) else none)

/-- `FourToOneTradingService.tradeWithBank(player, bank, give, receive)`:
returns the flag together with the (possibly mutated) player and bank. -/
def tradeWithBank (player : PlayerState) (bank give receive : ResourceBundle) :
    Bool × PlayerState × ResourceBundle :=
  match listPositives give with
  | [(giveType, giveQty)] =>
    if giveType = .Desert then (false, player, bank)
    else if giveQty % 4 ≠ 0 then (false, player, bank)
    else
      match listPositives receive with
      | [(recvType, recvQty)] =>
        if recvType = .Desert then (false, player, bank)
        else if recvQty ≠ giveQty / 4 then (false, player, bank)
        else if ¬ hasResources player give then (false, player, bank)
        else if bank.get recvType < recvQty then (false, player, bank)
        else
          let pres := subBundles player.resources give
          let bank1 := addBundles bank give
          (true,
           { player with resources := pres.setKind recvType (pres.get recvType + recvQty) },
           bank1.setKind recvType (bank1.get recvType - recvQty))
      | _ => (false, player, bank)
  | _ => (false, player, bank)

/-- `maritimeTrade(playerId, give, receive)` (no phase check in this
engine variant): delegates to the trading service on the player's ledger
and the bank. -/
def maritimeTrade (s : EngineState) (pid : String) (give receive : ResourceBundle) :
    Bool × EngineState :=
  match findPlayer s.players pid with
  | none => (false, s)
  | some p =>
    let r := tradeWithBank p s.bank give receive
    (r.1, { s with players := updateFirst s.players pid (fun _ => r.2.1),
                   bank := r.2.2 })

/-! ### Paid building -/

/-- The fixed settlement cost: 1 Brick, 1 Lumber, 1 Wool, 1 Grain. -/
def buildCost : ResourceBundle := ⟨1, 1, 1, 1, 0, 0⟩

/-- `buildSettlementAt(playerId, nodeId)`: throws outside
`awaitingActions`; otherwise reports failure as `false` (unknown player,
occupied node, distance rule, unaffordable cost) and on success debits the
player, credits the bank, assigns ownership and grants a victory point. -/
def buildSettlementAt (s : EngineState) (pid : String) (nid : NodeId) :
    Except String (Bool × EngineState) :=
  if s.phase ≠ .awaitingActions then .error "Cannot build now."
  else match findPlayer s.players pid with
  | none => .ok (false, s)
  | some p =>
    if ownerNN s nid ≠ none then .ok (false, s)
    else if (neighborsOf s nid).any (fun n => ownerNN s n ≠ none) then .ok (false, s)
    else if ¬ hasResources p buildCost then .ok (false, s)
    else
      .ok (true, { s with
        players := updateFirst s.players pid (fun q =>
          { q with resources := subBundles q.resources buildCost,
                   settlements := addSet q.settlements nid,
                   victoryPoints := q.victoryPoints + 1 }),
        bank := addBundles s.bank buildCost,
        nodeOwnership := setA s.nodeOwnership nid (some pid) })

/-! ### Production (`distributeFor`) -/

/-- Truthy owner of a node as used by `distributeFor`'s
`if (!ownerId) continue` (the empty string is falsy). -/
def ownerTruthy (s : EngineState) (n : NodeId) : Option String :=
  match ownerNN s n with
  | none => none
  | some o => if o = "" then none else some o

/-- Pay one owned node for one hit tile: skip unowned nodes and an empty
bank; crash (`none`, the source's `players.get(ownerId)!` TypeError) when
the owner id is not a registered player; otherwise move
`min(1, available)` units of the tile's resource from the bank to the
owner. -/
def distStepNode (tile : Tile) (s : EngineState) (nid : NodeId) : Option EngineState :=
  match ownerTruthy s nid with
  | none => some s
  | some pid =>
    let k := tile.resource
    let available := s.bank.get k
    if available = 0 then some s
    else if (findPlayer s.players pid).isNone then none
    else
      let actual := min 1 available
      some { s with
        players := updateFirst s.players pid (fun q =>
          { q with resources := q.resources.setKind k (q.resources.get k + actual) }),
        bank := s.bank.setKind k (available - actual) }

def distNodes (tile : Tile) : EngineState → List NodeId → Option EngineState
  | s, [] => some s
  | s, nid :: rest =>
    match distStepNode tile s nid with
    | none => none
    | some s' => distNodes tile s' rest

def distTiles : EngineState → List Tile → Option EngineState
  | s, [] => some s
  | s, t :: rest =>
    match distNodes t s ((lookupA s.tileToNodes t.id).getD []) with
    | none => none
    | some s' => distTiles s' rest

/-- `distributeFor(numberToken)`: every tile whose token equals the roll
and which the robber does not sit on pays each node that touches it
(settlements only in this engine variant, 1 unit, bounded by the bank). -/
def distributeFor (s : EngineState) (numberToken : Nat) : Option EngineState :=
  distTiles s (s.tiles.filter (fun t =>
    t.numberToken = some numberToken && t.id ≠ s.robberOn))

/-! ### Discard on seven (`discardEvenly`, `handleRobberSeven`) -/

/-- The fixed kind order of `discardEvenly`. -/
def discardOrder : List ResourceType := [.Brick, .Lumber, .Wool, .Grain, .Ore]

structure DiscardState where
  p : ResourceBundle
  b : ResourceBundle
  rem : Nat
  did : Bool
deriving DecidableEq, Repr

/-- One `for (const res of order)` iteration: move one unit of `k` from
the player to the bank when the player holds one and cards remain to
discard. -/
def discardStep (k : ResourceType) (s : DiscardState) : DiscardState :=
  if 0 < s.p.get k ∧ 0 < s.rem then
    { p := s.p.setKind k (s.p.get k - 1),
      b := s.b.setKind k (s.b.get k + 1),
      rem := s.rem - 1,
      did := true }
  else s

/-- One pass of the `while` body over the five kinds. -/
def discardPass (p b : ResourceBundle) (rem : Nat) : DiscardState :=
  discardOrder.foldl (fun s k => discardStep k s) ⟨p, b, rem, false⟩

theorem discardStep_rem (k : ResourceType) (s : DiscardState) :
    (discardStep k s).rem ≤ s.rem ∧
      ((discardStep k s).did = true → (discardStep k s).rem < s.rem ∨ s.did = true) := by
  unfold discardStep
  split
  · next h => exact ⟨by dsimp only; omega, fun _ => Or.inl (by dsimp only; omega)⟩
  · exact ⟨Nat.le_refl _, fun h => Or.inr h⟩

theorem discardFold_rem (ks : List ResourceType) (s : DiscardState) :
    (ks.foldl (fun s k => discardStep k s) s).rem ≤ s.rem ∧
      ((ks.foldl (fun s k => discardStep k s) s).did = true →
        (ks.foldl (fun s k => discardStep k s) s).rem < s.rem ∨ s.did = true) := by
  induction ks generalizing s with
  | nil => exact ⟨Nat.le_refl _, fun h => Or.inr h⟩
  | cons k ks ih =>
    simp only [List.foldl_cons]
    obtain ⟨h1, h2⟩ := discardStep_rem k s
    obtain ⟨ih1, ih2⟩ := ih (discardStep k s)
    refine ⟨Nat.le_trans ih1 h1, fun hd => ?_⟩
    rcases ih2 hd with h | h
    · exact Or.inl (Nat.lt_of_lt_of_le h h1)
    · rcases h2 h with h' | h'
      · exact Or.inl (Nat.lt_of_le_of_lt ih1 h')
      · exact Or.inr h'

theorem discardPass_lt (p b : ResourceBundle) (rem : Nat)
    (h : (discardPass p b rem).did = true) : (discardPass p b rem).rem < rem := by
  have := discardFold_rem discardOrder ⟨p, b, rem, false⟩
  rcases this.2 h with h' | h'
  · exact h'
  · simp at h'

/-- `discardEvenly`'s `while (remaining > 0)` loop body, with an explicit
structural fuel so that the kernel can evaluate it. A productive pass
strictly decreases `rem` (`discardPass_lt`), so fuel `rem` is enough: the
fuel-exhausted branch is reached only with `rem = 0`, where it returns
exactly what the loop's exit returns. -/
def discardGo : Nat → ResourceBundle → ResourceBundle → Nat → ResourceBundle × ResourceBundle
  | 0, p, b, _ => (p, b)
  | fuel + 1, p, b, rem =>
    if rem = 0 then (p, b)
    else
      let s := discardPass p b rem
      if s.did = true then discardGo fuel s.p s.b s.rem
      else (s.p, s.b)

/-- The `while` loop of `discardEvenly`. -/
def discardLoop (p b : ResourceBundle) (rem : Nat) : ResourceBundle × ResourceBundle :=
  discardGo rem p b rem

/-- `discardEvenly(p, toDiscard)` restricted to the ledgers it touches. -/
def discardEvenly (p b : ResourceBundle) (toDiscard : Nat) : ResourceBundle × ResourceBundle :=
  discardLoop p b toDiscard

/-- `handleRobberSeven()` over the player list in map order, threading the
bank: every player holding at least 8 cards discards `floor(total/2)`. -/
def discardAll (b : ResourceBundle) : List PlayerState → List PlayerState × ResourceBundle
  | [] => ([], b)
  | p :: rest =>
    let total := bundleCount p.resources
    let pr := if 8 ≤ total then discardEvenly p.resources b (total / 2) else (p.resources, b)
    let r := discardAll pr.2 rest
    ({ p with resources := pr.1 } :: r.1, r.2)

def handleRobberSeven (s : EngineState) : EngineState :=
  let r := discardAll s.bank s.players
  { s with players := r.1, bank := r.2 }

/-! ### Robber (`moveRobber`) -/

/-- The victim's hand as the multiset of single cards, in record key
order (all six kinds, as `Object.entries` iterates the full record). -/
def allCards (b : ResourceBundle) : List ResourceType :=
  allResourceKinds.flatMap (fun k => List.replicate (b.get k) k)

def decRes (k : ResourceType) (q : PlayerState) : PlayerState :=
  { q with resources := q.resources.setKind k (q.resources.get k - 1) }

def incRes (k : ResourceType) (q : PlayerState) : PlayerState :=
  { q with resources := q.resources.setKind k (q.resources.get k + 1) }

/-- The `if (stealFromPlayerId)` block of `moveRobber`: when a truthy
victim id, a registered victim and a current player all exist and the
victim's hand is nonempty, one uniformly chosen card (`pick` models the
random draw) moves from the victim to the current player. -/
def stealCore (s1 : EngineState) (stealFrom : Option String) (pick : Nat) : EngineState :=
  if truthyOwner stealFrom then
    match findPlayer s1.players (stealFrom.getD ""), currentPlayerOf s1 with
    | some victim, some thief =>
      let victimCards := allCards victim.resources
      if victimCards.length = 0 then s1
      else
        let res := victimCards.getD (pick % victimCards.length) .Brick
        { s1 with players :=
            updateFirst (updateFirst s1.players victim.id (decRes res)) thief.id (incRes res) }
    | _, _ => s1
  else s1

/-- `moveRobber(toTile, stealFromPlayerId?)`: throws only on an unknown
tile; moves the marker in every phase; steals via `stealCore`; and
transitions to `awaitingActions` only when the phase was
`awaitingRobberMove`. -/
def moveRobber (s : EngineState) (toTile : TileId) (stealFrom : Option String)
    (pick : Nat) : Except String EngineState :=
  if (s.tiles.find? (fun t => t.id == toTile)).isNone then .error "Unknown tile."
  else
    let wasAwaiting := s.phase = .awaitingRobberMove
    let s2 := stealCore { s with robberOn := toTile } stealFrom pick
    .ok (if wasAwaiting then { s2 with phase := .awaitingActions } else s2)

/-! ### Turn flow -/

/-- `rollAndDistribute()` with the rolled total supplied by the caller
(the injected randomness service is external; the engine only branches on
the total). The reported gains/discards payload is not modelled. -/
def rollAndDistribute (s : EngineState) (total : Nat) : Except String EngineState :=
  if s.phase ≠ .awaitingRoll then .error "Cannot roll now."
  else if total = 7 then
    .ok { handleRobberSeven s with phase := .awaitingRobberMove }
  else
    match distributeFor s total with
    | none => .error "TypeError: missing owner"
    | some s' => .ok { s' with phase := .awaitingActions }

/-- `nextPlayer()`. -/
def nextPlayer (s : EngineState) : Except String EngineState :=
  if s.phase ≠ .awaitingActions then .error "Finish actions first."
  else .ok { s with currentIdx := (s.currentIdx + 1) % s.currentPlayerOrder.length,
                    turn := s.turn + 1, phase := .awaitingRoll }

/-! ### Views and snapshots -/

structure PublicPlayer where
  id : String
  name : String
  victoryPoints : Nat
deriving DecidableEq, Repr

structure PublicGameView where
  players : List PublicPlayer
  robberOn : TileId
  bank : ResourceBundle
  tiles : List Tile
  currentPlayerId : Option String
  turn : Nat
  phase : TurnPhase
  nodeOwnership : List (NodeId × Option String)
  nodeAdjacentTiles : List (NodeId × List TileId)
  nodeAnchors : List (NodeId × TileId × Nat)
deriving DecidableEq, Repr

/-- `getPublicState()`. The node-keyed records preserve the map's
insertion order (the board's node ids are not array-index-like strings,
so `Object.entries` enumerates them in insertion order). -/
def getPublicState (s : EngineState) : PublicGameView :=
  { players := s.players.map (fun p => ⟨p.id, p.name, p.victoryPoints⟩),
    robberOn := s.robberOn,
    bank := s.bank,
    tiles := s.tiles,
    currentPlayerId := (currentPlayerOf s).map PlayerState.id,
    turn := s.turn,
    phase := s.phase,
    nodeOwnership := s.nodeOwnership,
    nodeAdjacentTiles := s.nodeAdjacentTiles,
    nodeAnchors := s.nodeAnchors }

structure SnapshotPlayer where
  id : String
  name : String
  resources : ResourceBundle
  settlements : List NodeId
  victoryPoints : Nat
deriving DecidableEq, Repr

/-- `EngineSnapshot`. -/
structure EngineSnapshot where
  tiles : List Tile
  bank : ResourceBundle
  players : List SnapshotPlayer
  order : List String
  idx : Nat
  robberOn : TileId
  turn : Nat
  phase : TurnPhase
  nodeOwnership : List (NodeId × Option String)
  setupRound : Nat
  setupDirection : Int
deriving DecidableEq, Repr

/-- `exportState()`. -/
def exportState (s : EngineState) : EngineSnapshot :=
  { tiles := s.tiles,
    bank := s.bank,
    players := s.players.map (fun p => ⟨p.id, p.name, p.resources, p.settlements, p.victoryPoints⟩),
    order := s.currentPlayerOrder,
    idx := s.currentIdx,
    robberOn := s.robberOn,
    turn := s.turn,
    phase := s.phase,
    nodeOwnership := s.nodeOwnership,
    setupRound := s.setupRound,
    setupDirection := s.setupDirection }

/-- `CatanEngine.importState(snapshot, rng, trader)`: a fresh engine from
the constructor (which always reseeds the standard geometry), then every
snapshotted field written back. `none` when the constructor crashes on an
empty tile list. -/
def importState (snap : EngineSnapshot) : Option EngineState :=
  (engineNew (some snap.tiles) (some snap.bank)).map (fun e =>
    { e with
      players := snap.players.map (fun p =>
        ⟨p.id, p.name, p.resources, p.settlements, p.victoryPoints⟩),
      currentPlayerOrder := snap.order,
      currentIdx := snap.idx,
      turn := snap.turn,
      phase := snap.phase,
      robberOn := snap.robberOn,
      nodeOwnership := snap.nodeOwnership,
      setupRound := snap.setupRound,
      setupDirection := snap.setupDirection })

/-! ### The resource-moving operations, packaged (claim C1) -/

/-- One resource-moving engine operation. -/
inductive EngineOp where
  | production (numberToken : Nat)
  | trade (pid : String) (give receive : ResourceBundle)
  | discardSeven
  | robber (toTile : TileId) (stealFrom : Option String) (pick : Nat)
  | build (pid : String) (nid : NodeId)
deriving Repr

/-- Run one operation; `none` collapses both thrown errors and the
modelled `TypeError` (in either case the caller got no new state). -/
def applyOp (s : EngineState) : EngineOp → Option EngineState
  | .production tok => distributeFor s tok
  | .trade pid give receive => some (maritimeTrade s pid give receive).2
  | .discardSeven => some (handleRobberSeven s)
  | .robber toTile stealFrom pick => (moveRobber s toTile stealFrom pick).toOption
  | .build pid nid => ((buildSettlementAt s pid nid).map Prod.snd).toOption

/-- The conserved quantity of claim C1: the bank's count of `r` plus all
players' counts of `r`. -/
def bankPlusPlayers (s : EngineState) (r : ResourceType) : Nat :=
  s.bank.get r + (s.players.map (fun p => p.resources.get r)).sum

/-! ## Helper lemmas: association lists and player sums -/

def playersSum (l : List PlayerState) (r : ResourceType) : Nat :=
  (l.map (fun p => p.resources.get r)).sum

theorem bankPlusPlayers_def (s : EngineState) (r : ResourceType) :
    bankPlusPlayers s r = s.bank.get r + playersSum s.players r := rfl

theorem lookup_setA [DecidableEq α] (l : List (α × β)) (k k' : α) (v : β) :
    lookupA (setA l k v) k' = if k = k' then some v else lookupA l k' := by
  induction l with
  | nil => simp [setA, lookupA]
  | cons e rest ih =>
    obtain ⟨ek, ev⟩ := e
    by_cases hek : ek = k
    · subst hek
      by_cases h : ek = k' <;> simp [setA, lookupA, h]
    · rw [setA, if_neg hek]
      by_cases h : ek = k'
      · have hkk : ¬ k = k' := fun hh => hek (h.trans hh.symm)
        simp [lookupA, h, hkk]
      · simp [lookupA, h, ih]

theorem updateFirst_not_found (l : List PlayerState) (pid : String)
    (f : PlayerState → PlayerState) (h : findPlayer l pid = none) :
    updateFirst l pid f = l := by
  induction l with
  | nil => rfl
  | cons p rest ih =>
    by_cases hp : p.id = pid
    · simp [findPlayer, hp] at h
    · simp only [findPlayer, hp, if_neg] at h
      simp [updateFirst, hp, ih h]

theorem updateFirst_sum (l : List PlayerState) (pid : String)
    (f : PlayerState → PlayerState) (p : PlayerState) (r : ResourceType)
    (h : findPlayer l pid = some p) :
    playersSum (updateFirst l pid f) r + p.resources.get r
      = playersSum l r + (f p).resources.get r := by
  induction l with
  | nil => simp [findPlayer] at h
  | cons q rest ih =>
    by_cases hq : q.id = pid
    · rw [findPlayer, if_pos hq] at h
      injection h with h
      subst h
      simp [updateFirst, hq, playersSum]
      omega
    · rw [findPlayer, if_neg hq] at h
      have hrest := ih h
      simp only [playersSum, List.map_cons, List.sum_cons] at hrest ⊢
      simp [updateFirst, hq]
      omega

theorem findPlayer_updateFirst_isSome (l : List PlayerState) (pid tid : String)
    (f : PlayerState → PlayerState) (hf : ∀ q, (f q).id = q.id) :
    (findPlayer (updateFirst l pid f) tid).isSome = (findPlayer l tid).isSome := by
  induction l with
  | nil => rfl
  | cons q rest ih =>
    by_cases hq : q.id = pid
    · rw [updateFirst, if_pos hq]
      simp only [findPlayer, hf q]
      by_cases ht : q.id = tid <;> simp [ht]
    · rw [updateFirst, if_neg hq]
      simp only [findPlayer]
      by_cases ht : q.id = tid <;> simp [ht, ih]

/-! ## Helper lemmas: the discard loop -/

theorem discardStep_conserve (k : ResourceType) (s : DiscardState) (r : ResourceType) :
    (discardStep k s).p.get r + (discardStep k s).b.get r = s.p.get r + s.b.get r := by
  by_cases hc : 0 < s.p.get k ∧ 0 < s.rem
  · by_cases hr : r = k <;> simp [discardStep, hc, hr] <;> omega
  · simp [discardStep, hc]

theorem discardStep_le (k : ResourceType) (s : DiscardState) (r : ResourceType) :
    (discardStep k s).p.get r ≤ s.p.get r := by
  by_cases hc : 0 < s.p.get k ∧ 0 < s.rem
  · by_cases hr : r = k <;> simp [discardStep, hc, hr]
  · simp [discardStep, hc]

theorem bundleCount_get (b : ResourceBundle) :
    bundleCount b = b.get .Brick + b.get .Lumber + b.get .Wool + b.get .Grain + b.get .Ore := rfl

theorem discardStep_count (k : ResourceType) (hk : k ≠ .Desert) (s : DiscardState) :
    bundleCount (discardStep k s).p + s.rem = bundleCount s.p + (discardStep k s).rem := by
  by_cases hc : 0 < s.p.get k ∧ 0 < s.rem
  · cases k <;> simp_all [discardStep, bundleCount_get, ResourceBundle.get,
      ResourceBundle.setKind] <;> omega
  · simp [discardStep, hc]

theorem discardStep_not_did (k : ResourceType) (s : DiscardState)
    (h : (discardStep k s).did = false) :
    discardStep k s = s ∧ s.did = false ∧ (s.p.get k = 0 ∨ s.rem = 0) := by
  by_cases hc : 0 < s.p.get k ∧ 0 < s.rem
  · exfalso; simp [discardStep, hc] at h
  · exact ⟨by simp [discardStep, hc], by simpa [discardStep, hc] using h, by omega⟩

theorem discardFold_conserve (ks : List ResourceType) (s : DiscardState) (r : ResourceType) :
    ((ks.foldl (fun s k => discardStep k s) s).p.get r
      + (ks.foldl (fun s k => discardStep k s) s).b.get r) = s.p.get r + s.b.get r := by
  induction ks generalizing s with
  | nil => rfl
  | cons k ks ih =>
    simp only [List.foldl_cons]
    rw [ih (discardStep k s), discardStep_conserve]

theorem discardFold_le (ks : List ResourceType) (s : DiscardState) (r : ResourceType) :
    (ks.foldl (fun s k => discardStep k s) s).p.get r ≤ s.p.get r := by
  induction ks generalizing s with
  | nil => exact Nat.le_refl _
  | cons k ks ih =>
    simp only [List.foldl_cons]
    exact Nat.le_trans (ih (discardStep k s)) (discardStep_le k s r)

theorem discardFold_count (ks : List ResourceType) (hks : ∀ k ∈ ks, k ≠ .Desert)
    (s : DiscardState) :
    bundleCount (ks.foldl (fun s k => discardStep k s) s).p + s.rem
      = bundleCount s.p + (ks.foldl (fun s k => discardStep k s) s).rem := by
  induction ks generalizing s with
  | nil => rfl
  | cons k ks ih =>
    simp only [List.foldl_cons]
    have h1 := discardStep_count k (hks k (by simp)) s
    have h2 := ih (fun k hk => hks k (by simp [hk])) (discardStep k s)
    omega

theorem discardFold_not_did (ks : List ResourceType) (s : DiscardState)
    (h : (ks.foldl (fun s k => discardStep k s) s).did = false) :
    ks.foldl (fun s k => discardStep k s) s = s ∧ s.did = false ∧
      ∀ k ∈ ks, s.p.get k = 0 ∨ s.rem = 0 := by
  induction ks generalizing s with
  | nil => exact ⟨rfl, h, by simp⟩
  | cons k ks ih =>
    simp only [List.foldl_cons] at h ⊢
    obtain ⟨hfold, hdid, hall⟩ := ih (discardStep k s) h
    obtain ⟨hstep, hsdid, hcond⟩ := discardStep_not_did k s hdid
    rw [hstep] at hfold hall
    refine ⟨by rw [hstep]; exact hfold, hsdid, ?_⟩
    intro k' hk'
    rcases List.mem_cons.mp hk' with h' | h'
    · exact h' ▸ hcond
    · exact hall k' h'

theorem discardGo_spec (fuel : Nat) : ∀ (p b : ResourceBundle) (rem : Nat), rem ≤ fuel →
    (∀ r, (discardGo fuel p b rem).1.get r + (discardGo fuel p b rem).2.get r
            = p.get r + b.get r) ∧
    (∀ r, (discardGo fuel p b rem).1.get r ≤ p.get r) ∧
    (rem ≤ bundleCount p →
      bundleCount (discardGo fuel p b rem).1 = bundleCount p - rem) := by
  induction fuel with
  | zero =>
    intro p b rem hf
    have h0 : rem = 0 := Nat.le_zero.mp hf
    subst h0
    exact ⟨fun r => rfl, fun r => Nat.le_refl _, fun _ => by simp [discardGo]⟩
  | succ fuel ih =>
    intro p b rem hf
    by_cases h0 : rem = 0
    · subst h0
      refine ⟨fun r => ?_, fun r => ?_, fun _ => ?_⟩ <;> simp [discardGo]
    · simp only [discardGo, h0, if_false]
      by_cases hdid : (discardPass p b rem).did = true
      · simp only [hdid, if_pos]
        have hlt := discardPass_lt p b rem hdid
        obtain ⟨ihc, ihle, ihcount⟩ :=
          ih (discardPass p b rem).p (discardPass p b rem).b (discardPass p b rem).rem
            (by omega)
        have passc : ∀ r, (discardPass p b rem).p.get r + (discardPass p b rem).b.get r
            = p.get r + b.get r := fun r => discardFold_conserve discardOrder ⟨p, b, rem, false⟩ r
        have passle : ∀ r, (discardPass p b rem).p.get r ≤ p.get r :=
          fun r => discardFold_le discardOrder ⟨p, b, rem, false⟩ r
        have passcount : bundleCount (discardPass p b rem).p + rem
            = bundleCount p + (discardPass p b rem).rem :=
          discardFold_count discardOrder (by decide) ⟨p, b, rem, false⟩
        refine ⟨fun r => by rw [ihc r, passc r],
                fun r => Nat.le_trans (ihle r) (passle r),
                fun hle => ?_⟩
        rw [ihcount (by omega)]
        omega
      · rw [if_neg hdid]
        simp only [Bool.not_eq_true] at hdid
        obtain ⟨hfold, -, hall⟩ :=
          discardFold_not_did discardOrder ⟨p, b, rem, false⟩ hdid
        have hp : (discardPass p b rem).p = p := by
          rw [discardPass, hfold]
        have hb : (discardPass p b rem).b = b := by
          rw [discardPass, hfold]
        refine ⟨fun r => by rw [hp, hb], fun r => by rw [hp], fun hle => ?_⟩
        exfalso
        have hB := hall .Brick (by simp [discardOrder])
        have hL := hall .Lumber (by simp [discardOrder])
        have hW := hall .Wool (by simp [discardOrder])
        have hG := hall .Grain (by simp [discardOrder])
        have hO := hall .Ore (by simp [discardOrder])
        dsimp only at hB hL hW hG hO
        rw [bundleCount_get] at hle
        omega

theorem discardLoop_spec (rem : Nat) (p b : ResourceBundle) :
    (∀ r, (discardLoop p b rem).1.get r + (discardLoop p b rem).2.get r
            = p.get r + b.get r) ∧
    (∀ r, (discardLoop p b rem).1.get r ≤ p.get r) ∧
    (rem ≤ bundleCount p →
      bundleCount (discardLoop p b rem).1 = bundleCount p - rem) :=
  discardGo_spec rem p b rem (Nat.le_refl rem)

theorem discardAll_conserve (l : List PlayerState) (b : ResourceBundle) (r : ResourceType) :
    (discardAll b l).2.get r + playersSum (discardAll b l).1 r
      = b.get r + playersSum l r := by
  induction l generalizing b with
  | nil => simp [discardAll, playersSum]
  | cons p rest ih =>
    simp only [discardAll]
    by_cases h8 : 8 ≤ bundleCount p.resources
    · simp only [h8, if_pos]
      have hloop := (discardLoop_spec (bundleCount p.resources / 2) p.resources b).1 r
      have hrest := ih (discardEvenly p.resources b (bundleCount p.resources / 2)).2
      simp only [playersSum, List.map_cons, List.sum_cons] at hloop hrest ⊢
      simp only [discardEvenly] at hloop hrest ⊢
      omega
    · rw [if_neg h8]
      have hrest := ih b
      simp only [playersSum, List.map_cons, List.sum_cons] at hrest ⊢
      omega

/-! ## Helper lemmas: bundles, lookups, players -/

@[simp] theorem get_addBundles (a b : ResourceBundle) (r : ResourceType) :
    (addBundles a b).get r = if r = .Desert then a.get r else a.get r + b.get r := by
  cases r <;> simp [addBundles, ResourceBundle.get]

@[simp] theorem get_subBundles (a b : ResourceBundle) (r : ResourceType) :
    (subBundles a b).get r = if r = .Desert then a.get r else a.get r - b.get r := by
  cases r <;> simp [subBundles, ResourceBundle.get]

theorem hasResources_le (p : PlayerState) (bundle : ResourceBundle)
    (h : hasResources p bundle = true) (k : ResourceType) :
    bundle.get k ≤ p.resources.get k := by
  simp [hasResources, allResourceKinds] at h
  obtain ⟨h1, h2, h3, h4, h5, h6⟩ := h
  cases k <;> omega

theorem findPlayer_id (l : List PlayerState) (pid : String) (p : PlayerState)
    (h : findPlayer l pid = some p) : p.id = pid := by
  induction l with
  | nil => simp [findPlayer] at h
  | cons q rest ih =>
    by_cases hq : q.id = pid
    · rw [findPlayer, if_pos hq] at h
      injection h with h
      exact h ▸ hq
    · rw [findPlayer, if_neg hq] at h
      exact ih h

theorem allCards_getD_pos (b : ResourceBundle) (i : Nat) (h : (allCards b).length ≠ 0) :
    1 ≤ b.get ((allCards b).getD (i % (allCards b).length) .Brick) := by
  have hlt : i % (allCards b).length < (allCards b).length :=
    Nat.mod_lt _ (Nat.pos_of_ne_zero h)
  rw [List.getD_eq_getElem _ _ hlt]
  have hmem : (allCards b)[i % (allCards b).length] ∈ allCards b := List.getElem_mem hlt
  revert hmem
  generalize (allCards b)[i % (allCards b).length] = x
  intro hmem
  simp only [allCards, List.mem_flatMap, List.mem_replicate] at hmem
  obtain ⟨k, -, hk, rfl⟩ := hmem
  omega

/-! ## Conservation of resources (claim C1) -/

theorem distStepNode_conserve (tile : Tile) (s : EngineState) (nid : NodeId)
    (s' : EngineState) (h : distStepNode tile s nid = some s') (r : ResourceType) :
    bankPlusPlayers s' r = bankPlusPlayers s r := by
  unfold distStepNode at h
  cases howner : ownerTruthy s nid with
  | none => rw [howner] at h; cases h; rfl
  | some pid =>
    rw [howner] at h
    dsimp only at h
    by_cases hav : s.bank.get tile.resource = 0
    · rw [if_pos hav] at h; cases h; rfl
    · rw [if_neg hav] at h
      cases hfind : findPlayer s.players pid with
      | none => rw [hfind] at h; simp at h
      | some p =>
        rw [hfind] at h
        simp only [Option.isNone_some, Bool.false_eq_true, if_false, Option.some.injEq] at h
        subst h
        have hsum := updateFirst_sum s.players pid
          (fun q => { q with resources := (q.resources.setKind tile.resource
            (q.resources.get tile.resource + min 1 (s.bank.get tile.resource))) }) p r hfind
        rw [bankPlusPlayers_def, bankPlusPlayers_def]
        dsimp only at hsum ⊢
        simp only [get_setKind] at hsum ⊢
        by_cases hr : r = tile.resource <;> simp only [hr, if_true, if_pos, if_neg] <;>
          simp [hr] at hsum ⊢ <;> omega

theorem distNodes_conserve (tile : Tile) (nids : List NodeId) (s s' : EngineState)
    (h : distNodes tile s nids = some s') (r : ResourceType) :
    bankPlusPlayers s' r = bankPlusPlayers s r := by
  induction nids generalizing s with
  | nil => cases h; rfl
  | cons nid rest ih =>
    unfold distNodes at h
    cases hstep : distStepNode tile s nid with
    | none => rw [hstep] at h; cases h
    | some s1 =>
      rw [hstep] at h
      rw [ih s1 h, distStepNode_conserve tile s nid s1 hstep]

theorem distTiles_conserve (ts : List Tile) (s s' : EngineState)
    (h : distTiles s ts = some s') (r : ResourceType) :
    bankPlusPlayers s' r = bankPlusPlayers s r := by
  induction ts generalizing s with
  | nil => cases h; rfl
  | cons t rest ih =>
    unfold distTiles at h
    cases hstep : distNodes t s ((lookupA s.tileToNodes t.id).getD []) with
    | none => rw [hstep] at h; cases h
    | some s1 =>
      rw [hstep] at h
      rw [ih s1 h, distNodes_conserve t _ s s1 hstep]

theorem distributeFor_conserve (s : EngineState) (tok : Nat) (s' : EngineState)
    (h : distributeFor s tok = some s') (r : ResourceType) :
    bankPlusPlayers s' r = bankPlusPlayers s r :=
  distTiles_conserve _ s s' h r

theorem tradeWithBank_conserve (p : PlayerState) (bank give receive : ResourceBundle)
    (r : ResourceType) :
    (tradeWithBank p bank give receive).2.1.resources.get r
        + (tradeWithBank p bank give receive).2.2.get r
      = p.resources.get r + bank.get r ∧
    (tradeWithBank p bank give receive).2.1.id = p.id := by
  unfold tradeWithBank
  split
  · next gt gq hg =>
    by_cases h1 : gt = .Desert
    · rw [if_pos h1]; exact ⟨rfl, rfl⟩
    rw [if_neg h1]
    by_cases h2 : gq % 4 ≠ 0
    · rw [if_pos h2]; exact ⟨rfl, rfl⟩
    rw [if_neg h2]
    split
    · next rt rq hr =>
      by_cases h3 : rt = .Desert
      · rw [if_pos h3]; exact ⟨rfl, rfl⟩
      rw [if_neg h3]
      by_cases h4 : rq ≠ gq / 4
      · rw [if_pos h4]; exact ⟨rfl, rfl⟩
      rw [if_neg h4]
      by_cases h5 : ¬ hasResources p give = true
      · rw [if_pos h5]; exact ⟨rfl, rfl⟩
      rw [if_neg h5]
      by_cases h6 : bank.get rt < rq
      · rw [if_pos h6]; exact ⟨rfl, rfl⟩
      rw [if_neg h6]
      refine ⟨?_, rfl⟩
      dsimp only
      have hgr := hasResources_le p give (Decidable.not_not.mp h5) r
      have hgrt := hasResources_le p give (Decidable.not_not.mp h5) rt
      have hlt := Nat.le_of_not_lt h6
      simp only [get_setKind, get_addBundles, get_subBundles]
      by_cases hrrt : r = rt <;> by_cases hrd : r = .Desert <;> simp_all <;> omega
    · exact ⟨rfl, rfl⟩
  · exact ⟨rfl, rfl⟩

theorem maritimeTrade_conserve (s : EngineState) (pid : String)
    (give receive : ResourceBundle) (r : ResourceType) :
    bankPlusPlayers (maritimeTrade s pid give receive).2 r = bankPlusPlayers s r := by
  unfold maritimeTrade
  cases hfind : findPlayer s.players pid with
  | none => rfl
  | some p =>
    dsimp only
    obtain ⟨hcons, -⟩ := tradeWithBank_conserve p s.bank give receive r
    have hsum := updateFirst_sum s.players pid
      (fun _ => (tradeWithBank p s.bank give receive).2.1) p r hfind
    dsimp only at hsum
    rw [bankPlusPlayers_def, bankPlusPlayers_def]
    dsimp only
    omega

theorem handleRobberSeven_conserve (s : EngineState) (r : ResourceType) :
    bankPlusPlayers (handleRobberSeven s) r = bankPlusPlayers s r := by
  rw [bankPlusPlayers_def, bankPlusPlayers_def]
  have := discardAll_conserve s.players s.bank r
  simp only [handleRobberSeven]
  omega

theorem bankPlusPlayers_withPhase (t : EngineState) (ph : TurnPhase) (r : ResourceType) :
    bankPlusPlayers { t with phase := ph } r = bankPlusPlayers t r := rfl

theorem stealCore_conserve (s1 : EngineState) (stealFrom : Option String) (pick : Nat)
    (r : ResourceType) :
    bankPlusPlayers (stealCore s1 stealFrom pick) r = bankPlusPlayers s1 r := by
  unfold stealCore
  by_cases hsteal : truthyOwner stealFrom = true
  · rw [if_pos hsteal]
    cases hv : findPlayer s1.players (stealFrom.getD "") with
    | none => rfl
    | some victim =>
      cases ht : currentPlayerOf s1 with
      | none => rfl
      | some thief =>
        dsimp only
        by_cases hlen : (allCards victim.resources).length = 0
        · rw [if_pos hlen]
        · rw [if_neg hlen]
          set res := (allCards victim.resources).getD
            (pick % (allCards victim.resources).length) .Brick with hres
          have hpos : 1 ≤ victim.resources.get res :=
            allCards_getD_pos victim.resources pick hlen
          have hv' : findPlayer s1.players victim.id = some victim := by
            rw [findPlayer_id _ _ _ hv]
            exact hv
          have hsum1 := updateFirst_sum s1.players victim.id (decRes res) victim r hv'
          have hthief2 : ∃ q, findPlayer (updateFirst s1.players victim.id (decRes res))
              thief.id = some q := by
            rw [← Option.isSome_iff_exists,
              findPlayer_updateFirst_isSome s1.players victim.id thief.id (decRes res)
                (fun q => rfl), Option.isSome_iff_exists]
            unfold currentPlayerOf at ht
            cases hord : s1.currentPlayerOrder.get? s1.currentIdx with
            | none => rw [hord] at ht; simp at ht
            | some oid =>
              rw [hord] at ht
              simp only [Option.some_bind] at ht
              refine ⟨thief, ?_⟩
              rw [findPlayer_id _ _ _ ht]
              exact ht
          obtain ⟨q, hq⟩ := hthief2
          have hsum2 := updateFirst_sum (updateFirst s1.players victim.id (decRes res))
            thief.id (incRes res) q r hq
          simp only [decRes, incRes, get_setKind] at hsum1 hsum2
          rw [bankPlusPlayers_def, bankPlusPlayers_def]
          dsimp only
          by_cases hrr : r = res
          · subst hrr
            simp at hsum1 hsum2
            omega
          · rw [if_neg hrr] at hsum1 hsum2
            omega
  · rw [if_neg hsteal]

theorem moveRobber_conserve (s : EngineState) (toTile : TileId)
    (stealFrom : Option String) (pick : Nat) (s' : EngineState)
    (h : moveRobber s toTile stealFrom pick = .ok s') (r : ResourceType) :
    bankPlusPlayers s' r = bankPlusPlayers s r := by
  unfold moveRobber at h
  by_cases htile : (s.tiles.find? (fun t => t.id == toTile)).isNone = true
  · rw [if_pos htile] at h; simp at h
  · rw [if_neg htile] at h
    dsimp only at h
    injection h with h
    subst h
    have hcore : bankPlusPlayers (stealCore { s with robberOn := toTile } stealFrom pick) r
        = bankPlusPlayers s r := stealCore_conserve { s with robberOn := toTile } stealFrom pick r
    by_cases hwa : s.phase = .awaitingRobberMove
    · rw [if_pos hwa, bankPlusPlayers_withPhase]
      exact hcore
    · rw [if_neg hwa]
      exact hcore

theorem buildSettlementAt_conserve (s : EngineState) (pid : String) (nid : NodeId)
    (bb : Bool) (s' : EngineState) (h : buildSettlementAt s pid nid = .ok (bb, s'))
    (r : ResourceType) :
    bankPlusPlayers s' r = bankPlusPlayers s r := by
  unfold buildSettlementAt at h
  by_cases hphase : s.phase ≠ .awaitingActions
  · rw [if_pos hphase] at h; simp at h
  · rw [if_neg hphase] at h
    cases hfind : findPlayer s.players pid with
    | none => rw [hfind] at h; injection h with h; cases h; rfl
    | some p =>
      rw [hfind] at h
      dsimp only at h
      by_cases h1 : ownerNN s nid ≠ none
      · rw [if_pos h1] at h; injection h with h; cases h; rfl
      rw [if_neg h1] at h
      by_cases h2 : (neighborsOf s nid).any (fun n => ownerNN s n ≠ none) = true
      · rw [if_pos h2] at h; injection h with h; cases h; rfl
      rw [if_neg h2] at h
      by_cases h3 : ¬ hasResources p buildCost = true
      · rw [if_pos h3] at h; injection h with h; cases h; rfl
      rw [if_neg h3] at h
      injection h with h
      cases h
      have hle := hasResources_le p buildCost (Decidable.not_not.mp h3) r
      have hsum := updateFirst_sum s.players pid
        (fun q => { q with resources := subBundles q.resources buildCost,
                           settlements := addSet q.settlements nid,
                           victoryPoints := q.victoryPoints + 1 }) p r hfind
      rw [bankPlusPlayers_def, bankPlusPlayers_def]
      dsimp only at hsum ⊢
      simp only [get_addBundles, get_subBundles] at hsum ⊢
      by_cases hrd : r = .Desert
      · simp only [if_pos hrd] at hsum ⊢
        omega
      · simp only [if_neg hrd] at hsum ⊢
        omega

/-- Claim C1: every resource-moving operation of the engine — production,
bank trade, discard-on-seven, robber theft and paid settlement building —
conserves `bank[r] + Σ players[r]` for every resource kind `r`, on every
engine state (in particular on every reachable one) on which it does not
throw. -/
theorem resource_conservation (s : EngineState) (op : EngineOp) (s' : EngineState)
    (h : applyOp s op = some s') (r : ResourceType) :
    bankPlusPlayers s' r = bankPlusPlayers s r := by
  cases op with
  | production tok => exact distributeFor_conserve s tok s' h r
  | trade pid give receive =>
    simp only [applyOp, Option.some.injEq] at h
    rw [← h]
    exact maritimeTrade_conserve s pid give receive r
  | discardSeven =>
    simp only [applyOp, Option.some.injEq] at h
    rw [← h]
    exact handleRobberSeven_conserve s r
  | robber toTile stealFrom pick =>
    simp only [applyOp] at h
    cases hmr : moveRobber s toTile stealFrom pick with
    | error e => rw [hmr] at h; simp [Except.toOption] at h
    | ok t =>
      rw [hmr] at h
      simp only [Except.toOption, Option.some.injEq] at h
      rw [← h]
      exact moveRobber_conserve s toTile stealFrom pick t hmr r
  | build pid nid =>
    simp only [applyOp] at h
    cases hb : buildSettlementAt s pid nid with
    | error e => rw [hb] at h; simp [Except.toOption, Except.map] at h
    | ok bs =>
      rw [hb] at h
      simp only [Except.toOption, Except.map, Option.some.injEq] at h
      obtain ⟨bb, t⟩ := bs
      simp only at h
      rw [← h]
      exact buildSettlementAt_conserve s pid nid bb t hb r

/-- Witness for C1 at a concrete input: the discard-on-seven operation on
a two-player state where one player holds 9 brick. -/
def c1WitnessState : EngineState :=
  { tiles := [⟨"T1", .Desert, none⟩],
    bank := defaultBank,
    players := [⟨"a", "A", ⟨9, 0, 0, 0, 0, 0⟩, [], 0⟩, ⟨"b", "B", emptyBundle, [], 0⟩],
    currentPlayerOrder := ["a", "b"],
    currentIdx := 0,
    robberOn := "T1",
    turn := 1,
    phase := .awaitingRoll,
    setupRound := 1,
    setupDirection := 1,
    nodeOwnership := [],
    nodeAdjacentTiles := [],
    nodeNeighbors := [],
    nodeAnchors := [],
    tileToNodes := [] }

theorem resource_conservation_witness :
    applyOp c1WitnessState .discardSeven = some (handleRobberSeven c1WitnessState) ∧
      bankPlusPlayers (handleRobberSeven c1WitnessState) .Brick
        = bankPlusPlayers c1WitnessState .Brick :=
  ⟨rfl, resource_conservation c1WitnessState .discardSeven
    (handleRobberSeven c1WitnessState) rfl .Brick⟩

/-! ## Claim C2: the `tradeWithBank` contract -/

/-- Claim C2 as amended: `tradeWithBank` succeeds exactly when `give`
names exactly one resource kind (not Desert) with a positive quantity
that is a multiple of 4, `receive` names exactly one resource kind (not
Desert, but **not necessarily different from the give kind**) with
quantity `give/4`, the player holds the give amount and the bank holds
the receive amount; every rejection leaves player and bank unchanged; on
success the give amount moves to the bank and the receive amount to the
player. -/
theorem tradeWithBank_contract (p : PlayerState) (bank give receive : ResourceBundle) :
    ((tradeWithBank p bank give receive).1 = true ↔
      ∃ gk gq rk, listPositives give = [(gk, gq)] ∧ gk ≠ .Desert ∧ gq % 4 = 0 ∧
        listPositives receive = [(rk, gq / 4)] ∧ rk ≠ .Desert ∧
        hasResources p give = true ∧ gq / 4 ≤ bank.get rk) ∧
    ((tradeWithBank p bank give receive).1 = false →
      (tradeWithBank p bank give receive).2.1 = p ∧
      (tradeWithBank p bank give receive).2.2 = bank) ∧
    (∀ gk gq rk rq, listPositives give = [(gk, gq)] →
      listPositives receive = [(rk, rq)] →
      (tradeWithBank p bank give receive).1 = true →
      (tradeWithBank p bank give receive).2.1 =
        { p with resources := ((subBundles p.resources give).setKind rk
            ((subBundles p.resources give).get rk + rq)) } ∧
      (tradeWithBank p bank give receive).2.2 =
        (addBundles bank give).setKind rk ((addBundles bank give).get rk - rq)) := by
  unfold tradeWithBank
  split
  · next gt gq hg =>
    by_cases h1 : gt = .Desert
    · rw [if_pos h1]
      refine ⟨⟨fun hT => by simp at hT, fun hex => ?_⟩, fun _ => ⟨rfl, rfl⟩,
        fun gk gq' rk rq hgive hrecv hT => by simp at hT⟩
      exfalso
      obtain ⟨gk, gq', rk, hgive, hgk, -, -, -, -, -⟩ := hex
      rw [hg] at hgive
      injection hgive with hh hrest
      injection hh with he1 he2
      exact hgk (he1 ▸ h1)
    rw [if_neg h1]
    by_cases h2 : gq % 4 ≠ 0
    · rw [if_pos h2]
      refine ⟨⟨fun hT => by simp at hT, fun hex => ?_⟩, fun _ => ⟨rfl, rfl⟩,
        fun gk gq' rk rq hgive hrecv hT => by simp at hT⟩
      exfalso
      obtain ⟨gk, gq', rk, hgive, -, hq4, -, -, -, -⟩ := hex
      rw [hg] at hgive
      injection hgive with hh hrest
      injection hh with he1 he2
      exact h2 (he2 ▸ hq4)
    rw [if_neg h2]
    split
    · next rt rq hr =>
      by_cases h3 : rt = .Desert
      · rw [if_pos h3]
        refine ⟨⟨fun hT => by simp at hT, fun hex => ?_⟩, fun _ => ⟨rfl, rfl⟩,
          fun gk gq' rk rq' hgive hrecv hT => by simp at hT⟩
        exfalso
        obtain ⟨gk, gq', rk, -, -, -, hrecv, hrk, -, -⟩ := hex
        rw [hr] at hrecv
        injection hrecv with hh hrest
        injection hh with he1 he2
        exact hrk (he1 ▸ h3)
      rw [if_neg h3]
      by_cases h4 : rq ≠ gq / 4
      · rw [if_pos h4]
        refine ⟨⟨fun hT => by simp at hT, fun hex => ?_⟩, fun _ => ⟨rfl, rfl⟩,
          fun gk gq' rk rq' hgive hrecv hT => by simp at hT⟩
        exfalso
        obtain ⟨gk, gq', rk, hgive, -, -, hrecv, -, -, -⟩ := hex
        rw [hg] at hgive
        rw [hr] at hrecv
        injection hgive with hh hrest
        injection hh with hg1 hg2
        injection hrecv with hh2 hrest2
        injection hh2 with hr1 hr2
        exact h4 (by rw [hr2, ← hg2])
      rw [if_neg h4]
      by_cases h5 : ¬ hasResources p give = true
      · rw [if_pos h5]
        refine ⟨⟨fun hT => by simp at hT, fun hex => ?_⟩, fun _ => ⟨rfl, rfl⟩,
          fun gk gq' rk rq' hgive hrecv hT => by simp at hT⟩
        exfalso
        obtain ⟨gk, gq', rk, -, -, -, -, -, hhas, -⟩ := hex
        exact h5 hhas
      rw [if_neg h5]
      by_cases h6 : bank.get rt < rq
      · rw [if_pos h6]
        refine ⟨⟨fun hT => by simp at hT, fun hex => ?_⟩, fun _ => ⟨rfl, rfl⟩,
          fun gk gq' rk rq' hgive hrecv hT => by simp at hT⟩
        exfalso
        obtain ⟨gk, gq', rk, hgive, -, -, hrecv, -, -, hbank⟩ := hex
        rw [hg] at hgive
        rw [hr] at hrecv
        injection hgive with hh hrest
        injection hh with hg1 hg2
        injection hrecv with hh2 hrest2
        injection hh2 with hr1 hr2
        subst hg2
        subst hr1
        subst hr2
        omega
      rw [if_neg h6]
      dsimp only
      refine ⟨⟨fun _ => ?_, fun _ => rfl⟩, by simp, ?_⟩
      · refine ⟨gt, gq, rt, hg, h1, Decidable.not_not.mp h2, ?_, h3,
          Decidable.not_not.mp h5, ?_⟩
        · rw [hr, Decidable.not_not.mp h4]
        · rw [← Decidable.not_not.mp h4]
          exact Nat.le_of_not_lt h6
      · intro gk gq' rk rq' hgive hrecv hT
        rw [hr] at hrecv
        injection hrecv with hh2 hrest2
        injection hh2 with hr1 hr2
        subst hr1
        subst hr2
        exact ⟨rfl, rfl⟩
    · rename_i hfall
      refine ⟨⟨fun hT => by simp at hT, fun hex => ?_⟩, fun _ => ⟨rfl, rfl⟩,
        fun gk gq' rk rq hgive hrecv hT => by simp at hT⟩
      exfalso
      obtain ⟨gk, gq', rk, hgive, -, -, hrecv, -, -, -⟩ := hex
      exact hfall rk (gq' / 4) hrecv
  · rename_i hfall
    refine ⟨⟨fun hT => by simp at hT, fun hex => ?_⟩, fun _ => ⟨rfl, rfl⟩,
      fun gk gq' rk rq hgive hrecv hT => by simp at hT⟩
    exfalso
    obtain ⟨gk, gq', rk, hgive, -, -, -, -, -, -⟩ := hex
    exact hfall gk gq' hgive

/-- Counterexample to claim C2 as stated: the service never compares the
give and receive kinds, so trading 4 Brick for 1 Brick is accepted and
executed, although the claim requires `receive` to name a *different*
kind and any other input to be rejected without mutation. -/
theorem tradeWithBank_same_kind_counterexample :
    listPositives (⟨4, 0, 0, 0, 0, 0⟩ : ResourceBundle) = [(.Brick, 4)] ∧
    listPositives (⟨1, 0, 0, 0, 0, 0⟩ : ResourceBundle) = [(.Brick, 1)] ∧
    (tradeWithBank ⟨"a", "A", ⟨4, 0, 0, 0, 0, 0⟩, [], 0⟩ defaultBank
        ⟨4, 0, 0, 0, 0, 0⟩ ⟨1, 0, 0, 0, 0, 0⟩).1 = true ∧
    (tradeWithBank ⟨"a", "A", ⟨4, 0, 0, 0, 0, 0⟩, [], 0⟩ defaultBank
        ⟨4, 0, 0, 0, 0, 0⟩ ⟨1, 0, 0, 0, 0, 0⟩).2.1.resources = ⟨1, 0, 0, 0, 0, 0⟩ ∧
    (tradeWithBank ⟨"a", "A", ⟨4, 0, 0, 0, 0, 0⟩, [], 0⟩ defaultBank
        ⟨4, 0, 0, 0, 0, 0⟩ ⟨1, 0, 0, 0, 0, 0⟩).2.2 = ⟨22, 19, 19, 19, 19, 0⟩ := by
  refine ⟨by decide, by decide, by decide, by decide, by decide⟩

/-- Witness for the amended C2 contract: a legal 4-Brick-for-1-Lumber
trade is accepted. -/
theorem tradeWithBank_contract_witness :
    (tradeWithBank ⟨"a", "A", ⟨4, 0, 0, 0, 0, 0⟩, [], 0⟩ defaultBank
        ⟨4, 0, 0, 0, 0, 0⟩ ⟨0, 1, 0, 0, 0, 0⟩).1 = true :=
  (tradeWithBank_contract ⟨"a", "A", ⟨4, 0, 0, 0, 0, 0⟩, [], 0⟩ defaultBank
      ⟨4, 0, 0, 0, 0, 0⟩ ⟨0, 1, 0, 0, 0, 0⟩).1.mpr
    ⟨.Brick, 4, .Lumber, by decide, by decide, by decide, by decide, by decide,
      by decide, by decide⟩

/-! ## Claim C3: `buildSettlementAt` error modes -/

/-- Claim C3 as amended: outside `awaitingActions` the call **throws**
(`'Cannot build now.'`), it does not return false; within
`awaitingActions` it returns false — without state change — on an
unknown player, an owned node, a distance-rule violation or an
unaffordable cost, and on success debits the player by the cost, credits
the bank by the cost, assigns ownership and grants 1 victory point. -/
theorem buildSettlementAt_contract (s : EngineState) (pid : String) (nid : NodeId) :
    (s.phase ≠ .awaitingActions →
      buildSettlementAt s pid nid = .error "Cannot build now.") ∧
    (s.phase = .awaitingActions →
      ∃ bb s', buildSettlementAt s pid nid = .ok (bb, s') ∧
        (bb = false → s' = s) ∧
        ((findPlayer s.players pid = none ∨ ownerNN s nid ≠ none ∨
          (∃ m ∈ neighborsOf s nid, ownerNN s m ≠ none) ∨
          (∀ p, findPlayer s.players pid = some p → hasResources p buildCost = false)) →
          bb = false) ∧
        (bb = true → ∃ p, findPlayer s.players pid = some p ∧
          hasResources p buildCost = true ∧
          ownerNN s nid = none ∧
          s'.bank = addBundles s.bank buildCost ∧
          s'.nodeOwnership = setA s.nodeOwnership nid (some pid) ∧
          ownerNN s' nid = some pid ∧
          s'.players = updateFirst s.players pid (fun q =>
            { q with resources := subBundles q.resources buildCost,
                     settlements := addSet q.settlements nid,
                     victoryPoints := q.victoryPoints + 1 }))) := by
  constructor
  · intro hph
    unfold buildSettlementAt
    rw [if_pos hph]
  · intro hph
    unfold buildSettlementAt
    rw [if_neg (by simp [hph])]
    cases hfind : findPlayer s.players pid with
    | none =>
      exact ⟨false, s, rfl, fun _ => rfl, fun _ => rfl, fun hT => by simp at hT⟩
    | some p =>
      dsimp only
      by_cases h1 : ownerNN s nid ≠ none
      · rw [if_pos h1]
        exact ⟨false, s, rfl, fun _ => rfl, fun _ => rfl, fun hT => by simp at hT⟩
      rw [if_neg h1]
      by_cases h2 : (neighborsOf s nid).any (fun n => ownerNN s n ≠ none) = true
      · rw [if_pos h2]
        exact ⟨false, s, rfl, fun _ => rfl, fun _ => rfl, fun hT => by simp at hT⟩
      rw [if_neg h2]
      by_cases h3 : ¬ hasResources p buildCost = true
      · rw [if_pos h3]
        exact ⟨false, s, rfl, fun _ => rfl, fun _ => rfl, fun hT => by simp at hT⟩
      rw [if_neg h3]
      refine ⟨true, _, rfl, fun hF => by simp at hF, fun hcases => ?_, fun _ => ?_⟩
      · exfalso
        rcases hcases with hc | hc | hc | hc
        · cases hc
        · exact h1 hc
        · obtain ⟨m, hm, hmo⟩ := hc
          have : (neighborsOf s nid).any (fun n => ownerNN s n ≠ none) = true := by
            rw [List.any_eq_true]
            exact ⟨m, hm, by simpa using hmo⟩
          exact h2 this
        · have := hc p rfl
          rw [Decidable.not_not.mp h3] at this
          cases this
      · refine ⟨p, rfl, Decidable.not_not.mp h3, Decidable.not_not.mp h1, rfl, rfl, ?_, rfl⟩
        show (lookupA (setA s.nodeOwnership nid (some pid)) nid).getD none = some pid
        rw [lookup_setA]
        simp

/-- Counterexample to claim C3 as stated: with the phase at
`awaitingRoll` (not `awaitingActions`), `buildSettlementAt` throws
`'Cannot build now.'` instead of returning false. -/
theorem buildSettlementAt_throws_counterexample :
    c1WitnessState.phase ≠ TurnPhase.awaitingActions ∧
    buildSettlementAt c1WitnessState "a" "N1" = .error "Cannot build now." := by
  exact ⟨by decide, rfl⟩

def c3ActionState : EngineState :=
  { c1WitnessState with phase := .awaitingActions }

/-- Witness for the amended C3 contract, applied at a concrete
`awaitingActions` state. -/
theorem buildSettlementAt_contract_witness :
    (buildSettlementAt c3ActionState "zz" "N1").isOk = true := by
  obtain ⟨bb, s', heq, -, -, -⟩ :=
    (buildSettlementAt_contract c3ActionState "zz" "N1").2 rfl
  rw [heq]
  rfl

/-! ## Claim C4: the distance rule -/

/-- The distance-rule invariant: no owned node has an owned neighbor. -/
def DistInv (s : EngineState) : Prop :=
  ∀ n, ownerNN s n ≠ none → ∀ m ∈ neighborsOf s n, ownerNN s m = none

theorem lookup_map_none (l : List NodeDef) (k : NodeId) :
    (lookupA (l.map (fun nd => (nd.id, (none : Option String)))) k).getD none = none := by
  induction l with
  | nil => rfl
  | cons nd rest ih =>
    simp only [List.map_cons, lookupA]
    by_cases h : nd.id = k <;> simp [h, ih]

theorem ownerNN_of_map_none (s : EngineState) (l : List NodeDef)
    (h : s.nodeOwnership = l.map (fun nd => (nd.id, none))) (n : NodeId) :
    ownerNN s n = none := by
  unfold ownerNN
  rw [h]
  exact lookup_map_none l n

/-- Full success extraction for `placeInitialSettlement`. -/
theorem place_ok_spec (s : EngineState) (pid : String) (nid : NodeId) (s' : EngineState)
    (h : placeInitialSettlement s pid nid = .ok s') :
    s.phase = .setupPlacement ∧
    (∃ p, findPlayer s.players pid = some p) ∧
    ownerNN s nid = none ∧
    (∀ m ∈ neighborsOf s nid, ownerNN s m = none) ∧
    s'.nodeOwnership = setA s.nodeOwnership nid (some pid) ∧
    s'.nodeNeighbors = s.nodeNeighbors ∧
    s'.nodeAdjacentTiles = s.nodeAdjacentTiles ∧
    s'.players = updateFirst s.players pid (fun q =>
      { q with settlements := addSet q.settlements nid,
               victoryPoints := q.victoryPoints + 1 }) ∧
    s'.currentPlayerOrder = s.currentPlayerOrder ∧
    s'.bank = s.bank ∧ s'.tiles = s.tiles ∧
    (if s.setupRound = 1 then
       if s.currentIdx = s.currentPlayerOrder.length - 1 then
         s'.setupRound = 2 ∧ s'.currentIdx = s.currentIdx ∧ s'.phase = .setupPlacement
       else s'.setupRound = s.setupRound ∧ s'.currentIdx = s.currentIdx + 1 ∧
         s'.phase = .setupPlacement
     else
       if s.currentIdx = 0 then
         s'.setupRound = s.setupRound ∧ s'.currentIdx = 0 ∧ s'.phase = .awaitingRoll
       else s'.setupRound = s.setupRound ∧ s'.currentIdx = s.currentIdx - 1 ∧
         s'.phase = .setupPlacement) := by
  unfold placeInitialSettlement at h
  by_cases hph : s.phase ≠ .setupPlacement
  · rw [if_pos hph] at h; cases h
  rw [if_neg hph] at h
  cases hfind : findPlayer s.players pid with
  | none => rw [hfind] at h; cases h
  | some p =>
    rw [hfind] at h
    dsimp only at h
    by_cases h1 : ownerNN s nid ≠ none
    · rw [if_pos h1] at h; cases h
    rw [if_neg h1] at h
    by_cases h2 : (neighborsOf s nid).any (fun n => ownerNN s n ≠ none) = true
    · rw [if_pos h2] at h; cases h
    rw [if_neg h2] at h
    injection h with h
    subst h
    have hnb : ∀ m ∈ neighborsOf s nid, ownerNN s m = none := by
      intro m hm
      by_contra hc
      exact h2 (List.any_eq_true.mpr ⟨m, hm, by simpa using hc⟩)
    refine ⟨Decidable.not_not.mp hph, ⟨p, rfl⟩, Decidable.not_not.mp h1, hnb, ?_⟩
    by_cases hr1 : s.setupRound = 1
    · by_cases hidx : s.currentIdx = s.currentPlayerOrder.length - 1
      · rw [if_pos hr1, if_pos hidx, if_pos hr1, if_pos hidx]
        exact ⟨rfl, rfl, rfl, rfl, rfl, rfl, rfl, rfl, rfl, Decidable.not_not.mp hph⟩
      · rw [if_pos hr1, if_neg hidx, if_pos hr1, if_neg hidx]
        exact ⟨rfl, rfl, rfl, rfl, rfl, rfl, rfl, rfl, rfl, Decidable.not_not.mp hph⟩
    · by_cases hidx : s.currentIdx = 0
      · rw [if_neg hr1, if_pos hidx, if_neg hr1, if_pos hidx]
        exact ⟨rfl, rfl, rfl, rfl, rfl, rfl, rfl, rfl, rfl, rfl⟩
      · rw [if_neg hr1, if_neg hidx, if_neg hr1, if_neg hidx]
        exact ⟨rfl, rfl, rfl, rfl, rfl, rfl, rfl, rfl, rfl, Decidable.not_not.mp hph⟩

/-- Converse: the placement guards are the only failure conditions. -/
theorem place_ok_of (s : EngineState) (pid : String) (nid : NodeId)
    (hph : s.phase = .setupPlacement)
    (hp : (findPlayer s.players pid).isSome = true)
    (hown : ownerNN s nid = none)
    (hnb : ∀ m ∈ neighborsOf s nid, ownerNN s m = none) :
    ∃ s', placeInitialSettlement s pid nid = .ok s' := by
  unfold placeInitialSettlement
  rw [if_neg (by simp [hph])]
  cases hfind : findPlayer s.players pid with
  | none => rw [hfind] at hp; simp at hp
  | some p =>
    dsimp only
    have hany : ¬ ((neighborsOf s nid).any (fun n => ownerNN s n ≠ none) = true) := by
      simp only [List.any_eq_true, not_exists]
      intro m
      rw [not_and]
      intro hm
      simp [hnb m hm]
    rw [if_neg (by simp [hown]), if_neg hany]
    exact ⟨_, rfl⟩

/-- Success/failure extraction for `buildSettlementAt` (helper shared by
several claims). -/
theorem build_ok_spec (s : EngineState) (pid : String) (nid : NodeId)
    (bb : Bool) (s' : EngineState) (h : buildSettlementAt s pid nid = .ok (bb, s')) :
    (bb = false → s' = s) ∧
    (bb = true →
      ownerNN s nid = none ∧
      (∀ m ∈ neighborsOf s nid, ownerNN s m = none) ∧
      s'.nodeOwnership = setA s.nodeOwnership nid (some pid) ∧
      s'.nodeNeighbors = s.nodeNeighbors) := by
  unfold buildSettlementAt at h
  by_cases hph : s.phase ≠ .awaitingActions
  · rw [if_pos hph] at h; cases h
  rw [if_neg hph] at h
  cases hfind : findPlayer s.players pid with
  | none =>
    rw [hfind] at h
    injection h with h
    injection h with h1 h2
    subst h2
    exact ⟨fun _ => rfl, fun hT => by rw [← h1] at hT; cases hT⟩
  | some p =>
    rw [hfind] at h
    dsimp only at h
    by_cases h1 : ownerNN s nid ≠ none
    · rw [if_pos h1] at h
      injection h with h
      injection h with hb hs
      subst hs
      exact ⟨fun _ => rfl, fun hT => by rw [← hb] at hT; cases hT⟩
    rw [if_neg h1] at h
    by_cases h2 : (neighborsOf s nid).any (fun n => ownerNN s n ≠ none) = true
    · rw [if_pos h2] at h
      injection h with h
      injection h with hb hs
      subst hs
      exact ⟨fun _ => rfl, fun hT => by rw [← hb] at hT; cases hT⟩
    rw [if_neg h2] at h
    by_cases h3 : ¬ hasResources p buildCost = true
    · rw [if_pos h3] at h
      injection h with h
      injection h with hb hs
      subst hs
      exact ⟨fun _ => rfl, fun hT => by rw [← hb] at hT; cases hT⟩
    rw [if_neg h3] at h
    injection h with h
    injection h with hb hs
    subst hs
    refine ⟨fun hF => (by rw [← hb] at hF; cases hF), fun _ => ?_⟩
    have hnb : ∀ m ∈ neighborsOf s nid, ownerNN s m = none := by
      intro m hm
      by_contra hc
      exact h2 (List.any_eq_true.mpr ⟨m, hm, by simpa using hc⟩)
    exact ⟨Decidable.not_not.mp h1, hnb, rfl, rfl⟩

theorem nodup_lookup {β : Type} (l : List (NodeId × β)) (hnd : (l.map Prod.fst).Nodup) :
    ∀ e ∈ l, lookupA l e.1 = some e.2 := by
  induction l with
  | nil => intro e he; cases he
  | cons x rest ih =>
    simp only [List.map_cons, List.nodup_cons] at hnd
    intro e he
    rcases List.mem_cons.mp he with he | he
    · subst he
      simp [lookupA]
    · have hne : x.1 ≠ e.1 := by
        intro hx
        exact hnd.1 (hx ▸ List.mem_map_of_mem Prod.fst he)
      simp only [lookupA, if_neg hne]
      exact ih hnd.2 e he

theorem spots_aux (s : EngineState) (l : List (NodeId × Option String))
    (hcons : ∀ e ∈ l, ownerNN s e.1 = e.2)
    (hemp : ∀ n, ownerNN s n ≠ some "") :
    (l.filterMap (fun e =>
      if truthyOwner e.2 then none
      else if (neighborsOf s e.1).any (fun n => ownerNN s n ≠ none) then none
      else some e.1))
    = (l.map Prod.fst).filter (fun n =>
        decide (ownerNN s n = none) &&
          !(neighborsOf s n).any (fun m => ownerNN s m ≠ none)) := by
  induction l with
  | nil => rfl
  | cons e rest ih =>
    obtain ⟨n, o⟩ := e
    have hce : ownerNN s n = o := hcons (n, o) (List.mem_cons_self _ rest)
    have hrest := ih (fun x hx => hcons x (List.mem_cons_of_mem _ hx))
    rw [List.map_cons, List.filter_cons]
    cases o with
    | none =>
      by_cases hany : ((neighborsOf s n).any fun m => decide (ownerNN s m ≠ none)) = true
      · rw [List.filterMap_cons_none (by
          show (if truthyOwner (none : Option String) = true then (none : Option NodeId)
                else if ((neighborsOf s n).any fun m => decide (ownerNN s m ≠ none)) = true
                then none else some n) = none
          rw [if_neg (by decide), if_pos hany])]
        rw [if_neg (by rw [hce, hany]; simp)]
        exact hrest
      · have hanyF : ((neighborsOf s n).any fun m => decide (ownerNN s m ≠ none)) = false :=
          Bool.not_eq_true _ ▸ (by simpa using hany)
        rw [List.filterMap_cons_some (b := n) (by
          show (if truthyOwner (none : Option String) = true then (none : Option NodeId)
                else if ((neighborsOf s n).any fun m => decide (ownerNN s m ≠ none)) = true
                then none else some n) = some n
          rw [if_neg (by decide), if_neg (by rw [hanyF]; simp)])]
        rw [if_pos (by rw [hce, hanyF]; rfl)]
        rw [hrest]
    | some oo =>
      have hone : oo ≠ "" := fun hoe => hemp n (by rw [hce, hoe])
      rw [List.filterMap_cons_none (by
        show (if truthyOwner (some oo) = true then (none : Option NodeId)
              else if ((neighborsOf s n).any fun m => decide (ownerNN s m ≠ none)) = true
              then none else some n) = none
        rw [if_pos (by simp [truthyOwner, hone])])]
      rw [if_neg (by rw [hce]; simp)]
      exact hrest

/-- Claim C4 as amended. (i) The constructor state satisfies the
distance-rule invariant and both placement operations preserve it (on any
state whose neighbor relation is symmetric and irreflexive, as the
standard board's is); (ii) placing on a node with an owned neighbor
always fails (throws in setup, returns false during actions); (iii) the
advisory spots query returns exactly the known nodes that are unowned
with no owned neighbor — **provided no node is owned under the empty
string as a player id** (the query's truthiness test treats such a node
as unowned while placement treats it as occupied). -/
theorem distance_rule (s : EngineState) :
    (∀ tc bc e, engineNew tc bc = some e → DistInv e) ∧
    (∀ pid nid s',
      (∀ a b, b ∈ neighborsOf s a → a ∈ neighborsOf s b) →
      (∀ a, a ∉ neighborsOf s a) →
      DistInv s → placeInitialSettlement s pid nid = .ok s' → DistInv s') ∧
    (∀ pid nid bb s',
      (∀ a b, b ∈ neighborsOf s a → a ∈ neighborsOf s b) →
      (∀ a, a ∉ neighborsOf s a) →
      DistInv s → buildSettlementAt s pid nid = .ok (bb, s') → DistInv s') ∧
    (∀ pid nid, (∃ m ∈ neighborsOf s nid, ownerNN s m ≠ none) →
      (∃ err, placeInitialSettlement s pid nid = .error err) ∧
      (∀ bb s', buildSettlementAt s pid nid = .ok (bb, s') → bb = false)) ∧
    ((∀ n, ownerNN s n ≠ some "") → (s.nodeOwnership.map Prod.fst).Nodup →
      getAvailableSettlementSpots s
        = (s.nodeOwnership.map Prod.fst).filter (fun n =>
            decide (ownerNN s n = none) &&
              !(neighborsOf s n).any (fun m => ownerNN s m ≠ none))) := by
  refine ⟨?_, ?_, ?_, ?_, ?_⟩
  · -- constructor state
    intro tc bc e he
    unfold engineNew at he
    dsimp only at he
    split at he
    · cases he
    · injection he with he
      intro n hn m hm
      exfalso
      refine hn (ownerNN_of_map_none e standard19Nodes ?_ n)
      rw [← he]
  · -- placeInitialSettlement preserves the invariant
    intro pid nid s' hsym hirr hInv h
    obtain ⟨-, -, hown, hnb, hOwnEq, hNbEq, -, -, -, -, -, -⟩ := place_ok_spec s pid nid s' h
    have hnbrs : ∀ x, neighborsOf s' x = neighborsOf s x := by
      intro x
      unfold neighborsOf
      rw [hNbEq]
    have howner : ∀ x, ownerNN s' x = if nid = x then some pid else ownerNN s x := by
      intro x
      unfold ownerNN
      rw [hOwnEq, lookup_setA]
      by_cases hx : nid = x <;> simp [hx, ownerNN]
    intro n hn m hm
    rw [hnbrs] at hm
    rw [howner] at hn
    rw [howner]
    by_cases hnn : nid = n
    · subst hnn
      have hmo := hnb m hm
      have hmne : ¬ nid = m := by
        intro he
        exact hirr nid (he ▸ hm)
      rw [if_neg hmne]
      exact hmo
    · rw [if_neg hnn] at hn
      by_cases hmn : nid = m
      · exfalso
        subst hmn
        have : n ∈ neighborsOf s nid := hsym n nid hm
        exact hn (hnb n this)
      · rw [if_neg hmn]
        exact hInv n hn m hm
  · -- buildSettlementAt preserves the invariant
    intro pid nid bb s' hsym hirr hInv h
    obtain ⟨hF, hT⟩ := build_ok_spec s pid nid bb s' h
    cases bb with
    | false => rw [hF rfl]; exact hInv
    | true =>
      obtain ⟨hown, hnb, hOwnEq, hNbEq⟩ := hT rfl
      have hnbrs : ∀ x, neighborsOf s' x = neighborsOf s x := by
        intro x
        unfold neighborsOf
        rw [hNbEq]
      have howner : ∀ x, ownerNN s' x = if nid = x then some pid else ownerNN s x := by
        intro x
        unfold ownerNN
        rw [hOwnEq, lookup_setA]
        by_cases hx : nid = x <;> simp [hx, ownerNN]
      intro n hn m hm
      rw [hnbrs] at hm
      rw [howner] at hn
      rw [howner]
      by_cases hnn : nid = n
      · subst hnn
        have hmo := hnb m hm
        have hmne : ¬ nid = m := by
          intro he
          exact hirr nid (he ▸ hm)
        rw [if_neg hmne]
        exact hmo
      · rw [if_neg hnn] at hn
        by_cases hmn : nid = m
        · exfalso
          subst hmn
          have : n ∈ neighborsOf s nid := hsym n nid hm
          exact hn (hnb n this)
        · rw [if_neg hmn]
          exact hInv n hn m hm
  · -- a node with an owned neighbor is never placeable
    intro pid nid hex
    obtain ⟨m, hm, hmo⟩ := hex
    have hany : ((neighborsOf s nid).any fun n => decide (ownerNN s n ≠ none)) = true :=
      List.any_eq_true.mpr ⟨m, hm, by simpa using hmo⟩
    constructor
    · unfold placeInitialSettlement
      by_cases hph : s.phase ≠ .setupPlacement
      · rw [if_pos hph]; exact ⟨_, rfl⟩
      rw [if_neg hph]
      cases hfind : findPlayer s.players pid with
      | none => exact ⟨_, rfl⟩
      | some p =>
        dsimp only
        by_cases h1 : ownerNN s nid ≠ none
        · rw [if_pos h1]; exact ⟨_, rfl⟩
        · rw [if_neg h1, if_pos hany]; exact ⟨_, rfl⟩
    · intro bb s' h
      obtain ⟨-, hT⟩ := build_ok_spec s pid nid bb s' h
      cases bb with
      | false => rfl
      | true =>
        obtain ⟨-, hnb, -, -⟩ := hT rfl
        exact absurd (hnb m hm) hmo
  · -- the spots query, absent empty-string owners
    intro hemp hnd
    have hcons : ∀ e ∈ s.nodeOwnership, ownerNN s e.1 = e.2 := by
      intro e he
      unfold ownerNN
      rw [nodup_lookup s.nodeOwnership hnd e he]
      rfl
    exact spots_aux s s.nodeOwnership hcons hemp

/-- The default constructor state, spelled out over the literal board
(used to keep kernel evaluation of concrete scenarios cheap). -/
def engineStdLit : EngineState :=
  { tiles := stdTilesLit,
    bank := defaultBank,
    players := [],
    currentPlayerOrder := [],
    currentIdx := 0,
    robberOn := "T10",
    turn := 0,
    phase := .setupPlacement,
    setupRound := 1,
    setupDirection := 1,
    nodeOwnership := stdNodesLit.map (fun n => (n.id, none)),
    nodeAdjacentTiles := stdNodesLit.map (fun n => (n.id, n.adjacentTiles)),
    nodeNeighbors := stdNodesLit.map (fun n => (n.id, n.neighborNodes)),
    nodeAnchors := stdNodesLit.map (fun n => (n.id, n.anchorTileId, n.cornerIndex)),
    tileToNodes := buildTileToNodes (stdNodesLit.map (fun n => (n.id, n.adjacentTiles))) }

set_option maxRecDepth 100000 in
theorem engineNew_default : engineNew none none = some engineStdLit := by
  unfold engineNew engineStdLit
  rw [standard19Nodes_eq, standard19Tiles_eq]
  decide

/-- A reachable state that breaks claim C4's spots/placement agreement:
constructor, `addPlayer("", …)`, `addPlayer("b", …)`, `startGame()`, then
`placeInitialSettlement("", "N1")`. -/
def c4Chain : Except String EngineState :=
  (addPlayer engineStdLit "" "Anon").bind (fun e1 =>
    (addPlayer e1 "b" "Bob").bind (fun e2 =>
      (startGame e2 none).bind (fun e3 =>
        placeInitialSettlement e3 "" "N1")))

def c4State : EngineState :=
  { engineStdLit with
      players := [⟨"", "Anon", emptyBundle, ["N1"], 1⟩, ⟨"b", "Bob", emptyBundle, [], 0⟩],
      currentPlayerOrder := ["", "b"],
      currentIdx := 1,
      turn := 1,
      nodeOwnership := setA (stdNodesLit.map (fun n => (n.id, none))) "N1" (some "") }

set_option maxRecDepth 100000 in
/-- Counterexample to claim C4 as stated: in the reachable state
`c4State` the node `N1` is owned (placement on it throws
`'Spot occupied.'`), yet `getAvailableSettlementSpots` still lists it,
because the spots query's JS truthiness test treats the empty-string
owner as "unowned". So the query does not return exactly the nodes on
which placement would succeed. -/
theorem spots_counterexample :
    c4Chain = .ok c4State ∧
    ownerNN c4State "N1" = some "" ∧
    "N1" ∈ getAvailableSettlementSpots c4State ∧
    placeInitialSettlement c4State "b" "N1" = .error "Spot occupied." := by
  exact ⟨rfl, by decide, by decide, rfl⟩

/-- Witness for the amended C4, applied at the concrete constructor
state: the spots query agrees with the placement-legality filter. -/
theorem distance_rule_witness :
    getAvailableSettlementSpots engineStdLit
      = (engineStdLit.nodeOwnership.map Prod.fst).filter (fun n =>
          decide (ownerNN engineStdLit n = none) &&
            !(neighborsOf engineStdLit n).any (fun m => ownerNN engineStdLit m ≠ none)) :=
  (distance_rule engineStdLit).2.2.2.2
    (fun n => by rw [ownerNN_of_map_none engineStdLit stdNodesLit rfl n]; simp)
    (by decide)

/-! ## Claim C5: snake setup order -/

/-- The id of the engine's current player as the UI would read it
(`order[idx]`; out of range reads as `""` for bookkeeping). -/
def curId (s : EngineState) : String := s.currentPlayerOrder.getD s.currentIdx ""

/-- Run a sequence of `placeInitialSettlement` calls, recording the
current player id before each successful call; `none` as soon as one
throws. -/
def runPlacements : EngineState → List (String × NodeId) → Option (List String × EngineState)
  | s, [] => some ([], s)
  | s, pn :: rest =>
    match placeInitialSettlement s pn.1 pn.2 with
    | .error _ => none
    | .ok s1 =>
      match runPlacements s1 rest with
      | none => none
      | some r => some (curId s :: r.1, r.2)

/-- The snake order of setup-placement indices: `0,…,N-1,N-1,…,0`. -/
def snakeSeq (N : Nat) : List Nat := List.range N ++ (List.range N).reverse

/-- The state of the snake pointer after `k` successful placements. -/
def SnakeInv (ord : List String) (k : Nat) (s : EngineState) : Prop :=
  s.currentPlayerOrder = ord ∧
  ((k < ord.length ∧ s.setupRound = 1 ∧ s.currentIdx = k ∧ s.phase = .setupPlacement) ∨
   (ord.length ≤ k ∧ k < 2 * ord.length ∧ s.setupRound = 2 ∧
     s.currentIdx = 2 * ord.length - 1 - k ∧ s.phase = .setupPlacement) ∨
   (k = 2 * ord.length ∧ s.phase = .awaitingRoll ∧ s.currentIdx = 0))

theorem snakeSeq_length (N : Nat) : (snakeSeq N).length = 2 * N := by
  simp [snakeSeq]
  omega

theorem snakeSeq_getD (N k : Nat) (h : k < 2 * N) :
    (snakeSeq N).getD k 0 = if k < N then k else 2 * N - 1 - k := by
  have hlen : (snakeSeq N).length = 2 * N := snakeSeq_length N
  rw [List.getD_eq_getElem _ _ (by omega)]
  unfold snakeSeq
  by_cases hk : k < N
  · rw [if_pos hk, List.getElem_append_left (by simpa using hk)]
    simp
  · rw [if_neg hk, List.getElem_append_right (by simpa using hk)]
    simp only [List.getElem_reverse, List.length_range, List.getElem_range]
    omega

theorem run_snake (ord : List String) (hN : 2 ≤ ord.length) :
    ∀ (ps : List (String × NodeId)) (k : Nat) (s : EngineState)
      (ids : List String) (sf : EngineState),
      SnakeInv ord k s → k + ps.length ≤ 2 * ord.length →
      runPlacements s ps = some (ids, sf) →
      ids = (((snakeSeq ord.length).drop k).take ps.length).map (fun i => ord.getD i "") ∧
      SnakeInv ord (k + ps.length) sf := by
  intro ps
  induction ps with
  | nil =>
    intro k s ids sf hInv hle hrun
    injection hrun with hrun
    injection hrun with h1 h2
    subst h2
    exact ⟨h1.symm, by simpa using hInv⟩
  | cons pn rest ih =>
    intro k s ids sf hInv hle hrun
    unfold runPlacements at hrun
    cases hpl : placeInitialSettlement s pn.1 pn.2 with
    | error e => rw [hpl] at hrun; cases hrun
    | ok s1 =>
      rw [hpl] at hrun
      dsimp only at hrun
      cases hrest : runPlacements s1 rest with
      | none => rw [hrest] at hrun; cases hrun
      | some r =>
        rw [hrest] at hrun
        injection hrun with hrun
        injection hrun with h1 h2
        subst h2
        obtain ⟨hord, hdisj⟩ := hInv
        have hk2N : k < 2 * ord.length := by
          simp only [List.length_cons] at hle
          omega
        obtain ⟨-, -, -, -, -, -, -, -, hOrd1, -, -, hsnake⟩ :=
          place_ok_spec s pn.1 pn.2 s1 hpl
        -- the snake pointer advance establishes the invariant at k + 1
        have hInv1 : SnakeInv ord (k + 1) s1 ∧ s.currentIdx = (snakeSeq ord.length).getD k 0 := by
          rcases hdisj with ⟨hkN, hr1, hidx, hph⟩ | ⟨hkge, hklt, hr2, hidx, hph⟩ | ⟨hk2, -, -⟩
          · rw [hr1, if_pos rfl, hord] at hsnake
            by_cases hlast : k = ord.length - 1
            · rw [hidx, if_pos (by omega)] at hsnake
              obtain ⟨hr', hi', hp'⟩ := hsnake
              refine ⟨⟨hOrd1.trans hord, Or.inr (Or.inl ⟨by omega, by omega, hr', ?_, hp'⟩)⟩, ?_⟩
              · rw [hi']; omega
              · rw [snakeSeq_getD _ _ hk2N, if_pos hkN, hidx]
            · rw [hidx, if_neg (by omega)] at hsnake
              obtain ⟨hr', hi', hp'⟩ := hsnake
              refine ⟨⟨hOrd1.trans hord, Or.inl ⟨by omega, hr', by omega, hp'⟩⟩, ?_⟩
              rw [snakeSeq_getD _ _ hk2N, if_pos hkN, hidx]
          · rw [hord] at hsnake
            rw [if_neg (by rw [hr2]; omega)] at hsnake
            by_cases hzero : s.currentIdx = 0
            · rw [if_pos hzero] at hsnake
              obtain ⟨hr', hi', hp'⟩ := hsnake
              have hk1 : k = 2 * ord.length - 1 := by omega
              refine ⟨⟨hOrd1.trans hord, Or.inr (Or.inr ⟨by omega, hp', hi'⟩)⟩, ?_⟩
              rw [snakeSeq_getD _ _ hk2N, if_neg (by omega), hidx]
            · rw [if_neg hzero] at hsnake
              obtain ⟨hr', hi', hp'⟩ := hsnake
              refine ⟨⟨hOrd1.trans hord,
                Or.inr (Or.inl ⟨by omega, by omega, by rw [hr', hr2], by rw [hi', hidx]; omega, hp'⟩)⟩, ?_⟩
              rw [snakeSeq_getD _ _ hk2N, if_neg (by omega), hidx]
          · omega
        obtain ⟨hInv1, hcur⟩ := hInv1
        obtain ⟨hids, hfin⟩ := ih (k + 1) s1 r.1 r.2 hInv1
          (by simp only [List.length_cons] at hle; omega) hrest
        constructor
        · rw [← h1, hids]
          have hdrop : (snakeSeq ord.length).drop k
              = (snakeSeq ord.length).getD k 0 :: (snakeSeq ord.length).drop (k + 1) := by
            rw [List.getD_eq_getElem _ _ (by rw [snakeSeq_length]; omega)]
            exact List.drop_eq_getElem_cons (by rw [snakeSeq_length]; omega)
          rw [hdrop]
          simp only [List.length_cons, List.take_succ_cons, List.map_cons]
          congr 1
          unfold curId
          rw [hord, hcur]
        · have : k + (rest.length + 1) = (k + 1) + rest.length := by omega
          rw [List.length_cons, this]
          exact hfin

/-- Claim C5: after `startGame` with `N ≥ 2` players (phase
`setupPlacement`, snake round 1, index 0), a run of `2N` successful
`placeInitialSettlement` calls sees the current players in the order
`0,1,…,N-1,N-1,…,1,0` of the turn order; every proper prefix leaves the
phase at `setupPlacement`, and exactly after the `2N`-th placement the
phase is `awaitingRoll` with the index back at 0. -/
theorem snake_setup_order (s0 : EngineState) (ps : List (String × NodeId))
    (ids : List String) (sf : EngineState)
    (hph : s0.phase = .setupPlacement) (hr : s0.setupRound = 1) (hidx : s0.currentIdx = 0)
    (hN : 2 ≤ s0.currentPlayerOrder.length)
    (hlen : ps.length = 2 * s0.currentPlayerOrder.length)
    (hrun : runPlacements s0 ps = some (ids, sf)) :
    ids = (List.range s0.currentPlayerOrder.length
            ++ (List.range s0.currentPlayerOrder.length).reverse).map
            (fun i => s0.currentPlayerOrder.getD i "") ∧
    sf.phase = .awaitingRoll ∧ sf.currentIdx = 0 ∧
    sf.currentPlayerOrder = s0.currentPlayerOrder ∧
    (∀ j, j < 2 * s0.currentPlayerOrder.length →
      ∀ idsj sj, runPlacements s0 (ps.take j) = some (idsj, sj) →
        sj.phase = .setupPlacement) := by
  have hInv0 : SnakeInv s0.currentPlayerOrder 0 s0 :=
    ⟨rfl, Or.inl ⟨by omega, hr, hidx, hph⟩⟩
  obtain ⟨hids, hfin⟩ := run_snake s0.currentPlayerOrder hN ps 0 s0 ids sf hInv0
    (by omega) hrun
  obtain ⟨hordf, hdisj⟩ := hfin
  have hphase : sf.phase = .awaitingRoll ∧ sf.currentIdx = 0 := by
    rcases hdisj with ⟨h1, -, -, -⟩ | ⟨-, h2, -, -, -⟩ | ⟨-, h3, h4⟩
    · omega
    · omega
    · exact ⟨h3, h4⟩
  refine ⟨?_, hphase.1, hphase.2, hordf, ?_⟩
  · rw [hids, List.drop_zero, hlen, ← snakeSeq_length s0.currentPlayerOrder.length,
      List.take_length]
    rfl
  · intro j hj idsj sj hrunj
    have htl : (ps.take j).length = j := by
      rw [List.length_take]
      omega
    obtain ⟨-, hfj⟩ := run_snake s0.currentPlayerOrder hN (ps.take j) 0 s0 idsj sj hInv0
      (by omega) hrunj
    obtain ⟨-, hdj⟩ := hfj
    rw [htl] at hdj
    rcases hdj with ⟨-, -, -, hp⟩ | ⟨-, -, -, -, hp⟩ | ⟨hk, -, -⟩
    · exact hp
    · exact hp
    · omega

/-- A minimal two-player setup state for the C5 witness: four isolated
nodes, no neighbor entries (so every placement is legal). -/
def c5State : EngineState :=
  { tiles := [⟨"T1", .Desert, none⟩],
    bank := defaultBank,
    players := [⟨"a", "A", emptyBundle, [], 0⟩, ⟨"b", "B", emptyBundle, [], 0⟩],
    currentPlayerOrder := ["a", "b"],
    currentIdx := 0,
    robberOn := "T1",
    turn := 1,
    phase := .setupPlacement,
    setupRound := 1,
    setupDirection := 1,
    nodeOwnership := [("n1", none), ("n2", none), ("n3", none), ("n4", none)],
    nodeAdjacentTiles := [],
    nodeNeighbors := [],
    nodeAnchors := [],
    tileToNodes := [] }

def c5Moves : List (String × NodeId) := [("a", "n1"), ("b", "n2"), ("b", "n3"), ("a", "n4")]

def c5Final : EngineState :=
  { c5State with
      players := [⟨"a", "A", emptyBundle, ["n1", "n4"], 2⟩, ⟨"b", "B", emptyBundle, ["n2", "n3"], 2⟩],
      currentIdx := 0,
      phase := .awaitingRoll,
      setupRound := 2,
      setupDirection := -1,
      nodeOwnership := [("n1", some "a"), ("n2", some "b"), ("n3", some "b"), ("n4", some "a")] }

/-- Witness for C5 at a concrete two-player run: the placer sequence is
`a, b, b, a` and the final phase is `awaitingRoll` at index 0. -/
theorem snake_setup_order_witness :
    runPlacements c5State c5Moves = some (["a", "b", "b", "a"], c5Final) ∧
    (["a", "b", "b", "a"] : List String)
      = (List.range 2 ++ (List.range 2).reverse).map (fun i => c5State.currentPlayerOrder.getD i "") ∧
    c5Final.phase = .awaitingRoll ∧ c5Final.currentIdx = 0 := by
  have hrun : runPlacements c5State c5Moves = some (["a", "b", "b", "a"], c5Final) := by decide
  obtain ⟨hids, hphase, hidx, -, -⟩ :=
    snake_setup_order c5State c5Moves ["a", "b", "b", "a"] c5Final rfl rfl rfl
      (by decide) (by decide) hrun
  exact ⟨hrun, hids, hphase, hidx⟩

/-! ## Claim C6: discard-on-seven amounts -/

theorem discardAll_players (l : List PlayerState) (b : ResourceBundle) :
    (discardAll b l).1.length = l.length ∧
    ∀ i, i < l.length →
      ((discardAll b l).1.getD i dummyPlayer).id = (l.getD i dummyPlayer).id ∧
      bundleCount ((discardAll b l).1.getD i dummyPlayer).resources
        = bundleCount (l.getD i dummyPlayer).resources
          - (if 8 ≤ bundleCount (l.getD i dummyPlayer).resources
             then bundleCount (l.getD i dummyPlayer).resources / 2 else 0) ∧
      (∀ k, ((discardAll b l).1.getD i dummyPlayer).resources.get k
        ≤ (l.getD i dummyPlayer).resources.get k) := by
  induction l generalizing b with
  | nil => exact ⟨rfl, fun i hi => absurd hi (by simp)⟩
  | cons p rest ih =>
    constructor
    · show (discardAll _ rest).1.length + 1 = rest.length + 1
      rw [(ih _).1]
    · intro i hi
      cases i with
      | zero =>
        simp only [List.getD_cons_zero]
        have hd : (discardAll b (p :: rest)).1.getD 0 dummyPlayer
            = { p with resources :=
                (if 8 ≤ bundleCount p.resources
                 then discardEvenly p.resources b (bundleCount p.resources / 2)
                 else (p.resources, b)).1 } := rfl
        rw [hd]
        by_cases h8 : 8 ≤ bundleCount p.resources
        · rw [if_pos h8, if_pos h8]
          obtain ⟨-, hle, hcount⟩ :=
            discardLoop_spec (bundleCount p.resources / 2) p.resources b
          refine ⟨rfl, ?_, ?_⟩
          · dsimp only
            exact hcount (by omega)
          · intro k
            dsimp only
            exact hle k
        · rw [if_neg h8, if_neg h8]
          refine ⟨rfl, ?_, fun k => ?_⟩
          · dsimp only
            omega
          · dsimp only
            exact Nat.le_refl _
      | succ j =>
        simp only [List.getD_cons_succ, List.length_cons] at hi ⊢
        have hd : (discardAll b (p :: rest)).1.getD (j + 1) dummyPlayer
            = ((discardAll (if 8 ≤ bundleCount p.resources
                 then discardEvenly p.resources b (bundleCount p.resources / 2)
                 else (p.resources, b)).2 rest).1).getD j dummyPlayer := rfl
        rw [hd]
        exact (ih _).2 j (by omega)

/-- Claim C6: a roll of 7 sends the engine to `awaitingRobberMove` and
makes every player holding at least 8 cards discard exactly
`floor(total/2)` cards (removed round-robin in the fixed kind order
Brick, Lumber, Wool, Grain, Ore — the order of `discardOrder` in
`discardEvenly`); a player with 7 or fewer discards nothing; every
discarded unit is returned to the bank (per-kind sums are preserved while
each player's per-kind holdings never increase). -/
theorem discard_on_seven (s s' : EngineState) (h : rollAndDistribute s 7 = .ok s') :
    s'.phase = .awaitingRobberMove ∧
    s'.players.length = s.players.length ∧
    (∀ i, i < s.players.length →
      ((s'.players.getD i dummyPlayer).id = (s.players.getD i dummyPlayer).id ∧
       bundleCount (s'.players.getD i dummyPlayer).resources
         = bundleCount (s.players.getD i dummyPlayer).resources
           - (if 8 ≤ bundleCount (s.players.getD i dummyPlayer).resources
              then bundleCount (s.players.getD i dummyPlayer).resources / 2 else 0) ∧
       ∀ k, (s'.players.getD i dummyPlayer).resources.get k
         ≤ (s.players.getD i dummyPlayer).resources.get k)) ∧
    (∀ k, s'.bank.get k + playersSum s'.players k
      = s.bank.get k + playersSum s.players k) := by
  unfold rollAndDistribute at h
  by_cases hph : s.phase ≠ .awaitingRoll
  · rw [if_pos hph] at h; cases h
  rw [if_neg hph, if_pos rfl] at h
  injection h with h
  subst h
  obtain ⟨hlen, hplayers⟩ := discardAll_players s.players s.bank
  refine ⟨rfl, hlen, hplayers, fun k => ?_⟩
  have := discardAll_conserve s.players s.bank k
  dsimp only [handleRobberSeven]
  omega

def c6Final : EngineState :=
  { c1WitnessState with
      players := [⟨"a", "A", ⟨5, 0, 0, 0, 0, 0⟩, [], 0⟩, ⟨"b", "B", emptyBundle, [], 0⟩],
      bank := ⟨23, 19, 19, 19, 19, 0⟩,
      phase := .awaitingRobberMove }

/-- Witness for C6: the player holding exactly 9 cards (all Brick)
discards exactly 4 and ends with 5. -/
theorem discard_on_seven_witness :
    rollAndDistribute c1WitnessState 7 = .ok c6Final ∧
    bundleCount ((c6Final.players.getD 0 dummyPlayer).resources)
      = bundleCount ((c1WitnessState.players.getD 0 dummyPlayer).resources)
        - (if 8 ≤ bundleCount ((c1WitnessState.players.getD 0 dummyPlayer).resources)
           then bundleCount ((c1WitnessState.players.getD 0 dummyPlayer).resources) / 2 else 0) ∧
    bundleCount ((c6Final.players.getD 0 dummyPlayer).resources) = 5 := by
  have h : rollAndDistribute c1WitnessState 7 = .ok c6Final := rfl
  exact ⟨h, ((discard_on_seven c1WitnessState c6Final h).2.2.1 0 (by decide)).2.1, by decide⟩

/-! ## Claim C7: snapshot round-trip -/

/-- The engine fields that `exportState` does not snapshot: the geometry
maps that the constructor reseeds from `standard19Nodes` on import, plus
the requirement that the tile list is nonempty (the constructor crashes on
an empty one). Every constructor-built engine satisfies this and no
operation writes these fields, so every reachable state satisfies it. -/
def GeometryStandard (s : EngineState) : Prop :=
  s.nodeAdjacentTiles = standard19Nodes.map (fun n => (n.id, n.adjacentTiles)) ∧
  s.nodeNeighbors = standard19Nodes.map (fun n => (n.id, n.neighborNodes)) ∧
  s.nodeAnchors = standard19Nodes.map (fun n => (n.id, n.anchorTileId, n.cornerIndex)) ∧
  s.tileToNodes = buildTileToNodes (standard19Nodes.map (fun n => (n.id, n.adjacentTiles))) ∧
  s.tiles ≠ []

/-- `s'` carries the same geometry maps and tiles as `s`. -/
def SameGeom (s s' : EngineState) : Prop :=
  s'.nodeAdjacentTiles = s.nodeAdjacentTiles ∧
  s'.nodeNeighbors = s.nodeNeighbors ∧
  s'.nodeAnchors = s.nodeAnchors ∧
  s'.tileToNodes = s.tileToNodes ∧
  s'.tiles = s.tiles

theorem sameGeom_refl (s : EngineState) : SameGeom s s := ⟨rfl, rfl, rfl, rfl, rfl⟩

theorem sameGeom_trans {a b c : EngineState} (h1 : SameGeom a b) (h2 : SameGeom b c) :
    SameGeom a c :=
  ⟨h2.1.trans h1.1, h2.2.1.trans h1.2.1, h2.2.2.1.trans h1.2.2.1,
   h2.2.2.2.1.trans h1.2.2.2.1, h2.2.2.2.2.trans h1.2.2.2.2⟩

theorem geometryStandard_of_sameGeom {s s' : EngineState}
    (hg : GeometryStandard s) (hs : SameGeom s s') : GeometryStandard s' :=
  ⟨hs.1.trans hg.1, hs.2.1.trans hg.2.1, hs.2.2.1.trans hg.2.2.1,
   hs.2.2.2.1.trans hg.2.2.2.1, hs.2.2.2.2 ▸ hg.2.2.2.2⟩

/-- An engine state built by any sequence of constructor and public
operations, each time keeping only successful results (the exception and
crash cases leave the caller with no new state). -/
inductive Reachable : EngineState → Prop where
  | init (tc : Option (List Tile)) (bc : Option ResourceBundle) (s : EngineState) :
      engineNew tc bc = some s → Reachable s
  | player (s s' : EngineState) (pid pname : String) :
      Reachable s → addPlayer s pid pname = .ok s' → Reachable s'
  | start (s s' : EngineState) (fid : Option String) :
      Reachable s → startGame s fid = .ok s' → Reachable s'
  | place (s s' : EngineState) (pid : String) (nid : NodeId) :
      Reachable s → placeInitialSettlement s pid nid = .ok s' → Reachable s'
  | roll (s s' : EngineState) (total : Nat) :
      Reachable s → rollAndDistribute s total = .ok s' → Reachable s'
  | next (s s' : EngineState) :
      Reachable s → nextPlayer s = .ok s' → Reachable s'
  | op (s s' : EngineState) (o : EngineOp) :
      Reachable s → applyOp s o = some s' → Reachable s'

set_option maxRecDepth 10000 in
theorem engineNew_geom (tc : Option (List Tile)) (bc : Option ResourceBundle)
    (s : EngineState) (h : engineNew tc bc = some s) : GeometryStandard s := by
  unfold engineNew at h
  dsimp only at h
  split at h
  · cases h
  · rename_i rob heq
    injection h with h
    subst h
    refine ⟨rfl, rfl, rfl, rfl, fun hnil => ?_⟩
    have hnil' : tc.getD standard19Tiles = [] := hnil
    rw [hnil'] at heq
    simp [Option.orElse] at heq

theorem addPlayer_geom (s : EngineState) (pid pname : String) (s' : EngineState)
    (h : addPlayer s pid pname = .ok s') : SameGeom s s' := by
  unfold addPlayer at h
  split at h
  · cases h
  · injection h with h
    subst h
    exact ⟨rfl, rfl, rfl, rfl, rfl⟩

theorem startGame_geom (s : EngineState) (fid : Option String) (s' : EngineState)
    (h : startGame s fid = .ok s') : SameGeom s s' := by
  unfold startGame at h
  split at h
  · cases h
  split at h
  · cases h
  injection h with h
  subst h
  exact ⟨rfl, rfl, rfl, rfl, rfl⟩

theorem placeInitialSettlement_geom (s : EngineState) (pid : String) (nid : NodeId)
    (s' : EngineState) (h : placeInitialSettlement s pid nid = .ok s') : SameGeom s s' := by
  unfold placeInitialSettlement at h
  split at h
  · cases h
  split at h
  · cases h
  split at h
  · cases h
  split at h
  · cases h
  dsimp only at h
  injection h with h
  subst h
  refine ⟨?_, ?_, ?_, ?_, ?_⟩ <;> (split <;> (first | rfl | (split <;> rfl)))

theorem nextPlayer_geom (s s' : EngineState) (h : nextPlayer s = .ok s') : SameGeom s s' := by
  unfold nextPlayer at h
  split at h
  · cases h
  injection h with h
  subst h
  exact ⟨rfl, rfl, rfl, rfl, rfl⟩

theorem maritimeTrade_geom (s : EngineState) (pid : String) (give receive : ResourceBundle) :
    SameGeom s (maritimeTrade s pid give receive).2 := by
  unfold maritimeTrade
  split
  · exact sameGeom_refl s
  · exact ⟨rfl, rfl, rfl, rfl, rfl⟩

theorem handleRobberSeven_geom (s : EngineState) : SameGeom s (handleRobberSeven s) :=
  ⟨rfl, rfl, rfl, rfl, rfl⟩

theorem distStepNode_geom (t : Tile) (s : EngineState) (nid : NodeId) (s' : EngineState)
    (h : distStepNode t s nid = some s') : SameGeom s s' := by
  unfold distStepNode at h
  split at h
  · injection h with h; subst h; exact sameGeom_refl s
  · dsimp only at h
    split at h
    · injection h with h; subst h; exact sameGeom_refl s
    · split at h
      · cases h
      · injection h with h; subst h; exact ⟨rfl, rfl, rfl, rfl, rfl⟩

theorem distNodes_geom (t : Tile) (ns : List NodeId) : ∀ (s s' : EngineState),
    distNodes t s ns = some s' → SameGeom s s' := by
  induction ns with
  | nil =>
    intro s s' h
    rw [distNodes] at h
    injection h with h
    subst h
    exact sameGeom_refl s
  | cons n rest ih =>
    intro s s' h
    rw [distNodes] at h
    split at h
    · cases h
    · rename_i s1 hstep
      exact sameGeom_trans (distStepNode_geom t s n s1 hstep) (ih s1 s' h)

theorem distTiles_geom (ts : List Tile) : ∀ (s s' : EngineState),
    distTiles s ts = some s' → SameGeom s s' := by
  induction ts with
  | nil =>
    intro s s' h
    rw [distTiles] at h
    injection h with h
    subst h
    exact sameGeom_refl s
  | cons t rest ih =>
    intro s s' h
    rw [distTiles] at h
    split at h
    · cases h
    · rename_i s1 hstep
      exact sameGeom_trans (distNodes_geom t _ s s1 hstep) (ih s1 s' h)

theorem distributeFor_geom (s : EngineState) (tok : Nat) (s' : EngineState)
    (h : distributeFor s tok = some s') : SameGeom s s' :=
  distTiles_geom _ s s' h

theorem rollAndDistribute_geom (s : EngineState) (total : Nat) (s' : EngineState)
    (h : rollAndDistribute s total = .ok s') : SameGeom s s' := by
  unfold rollAndDistribute at h
  split at h
  · cases h
  split at h
  · injection h with h
    subst h
    exact ⟨rfl, rfl, rfl, rfl, rfl⟩
  · split at h
    · cases h
    · rename_i s1 hdist
      injection h with h
      subst h
      exact distributeFor_geom s total s1 hdist

theorem stealCore_geom (s1 : EngineState) (stealFrom : Option String) (pick : Nat) :
    SameGeom s1 (stealCore s1 stealFrom pick) := by
  unfold stealCore
  split
  · split
    · dsimp only
      split
      · exact sameGeom_refl s1
      · exact ⟨rfl, rfl, rfl, rfl, rfl⟩
    · exact sameGeom_refl s1
  · exact sameGeom_refl s1

theorem moveRobber_geom (s : EngineState) (toTile : TileId) (stealFrom : Option String)
    (pick : Nat) (s' : EngineState) (h : moveRobber s toTile stealFrom pick = .ok s') :
    SameGeom s s' := by
  unfold moveRobber at h
  split at h
  · cases h
  dsimp only at h
  injection h with h
  subst h
  have hcore := stealCore_geom { s with robberOn := toTile } stealFrom pick
  have hbase : SameGeom s { s with robberOn := toTile } := ⟨rfl, rfl, rfl, rfl, rfl⟩
  have h2 := sameGeom_trans hbase hcore
  split
  · exact ⟨h2.1, h2.2.1, h2.2.2.1, h2.2.2.2.1, h2.2.2.2.2⟩
  · exact h2

theorem buildSettlementAt_geom (s : EngineState) (pid : String) (nid : NodeId)
    (b : Bool) (s' : EngineState) (h : buildSettlementAt s pid nid = .ok (b, s')) :
    SameGeom s s' := by
  unfold buildSettlementAt at h
  split at h
  · cases h
  split at h
  · injection h with h; cases h; exact sameGeom_refl s
  split at h
  · injection h with h; cases h; exact sameGeom_refl s
  split at h
  · injection h with h; cases h; exact sameGeom_refl s
  split at h
  · injection h with h; cases h; exact sameGeom_refl s
  · injection h with h; cases h; exact ⟨rfl, rfl, rfl, rfl, rfl⟩

theorem applyOp_geom (s : EngineState) (o : EngineOp) (s' : EngineState)
    (h : applyOp s o = some s') : SameGeom s s' := by
  cases o with
  | production tok => exact distributeFor_geom s tok s' h
  | trade pid give receive =>
    injection h with h
    subst h
    exact maritimeTrade_geom s pid give receive
  | discardSeven =>
    injection h with h
    subst h
    exact handleRobberSeven_geom s
  | robber toTile stealFrom pick =>
    rw [applyOp] at h
    cases hm : moveRobber s toTile stealFrom pick with
    | error e => rw [hm] at h; cases h
    | ok s1 =>
      rw [hm] at h
      injection h with h
      subst h
      exact moveRobber_geom s toTile stealFrom pick _ hm
  | build pid nid =>
    rw [applyOp] at h
    cases hb : buildSettlementAt s pid nid with
    | error e => rw [hb] at h; cases h
    | ok r =>
      rw [hb] at h
      injection h with h
      subst h
      exact buildSettlementAt_geom s pid nid r.1 r.2 (by rw [hb])

/-- Every reachable state carries the standard geometry maps and a
nonempty tile list. -/
theorem reachable_geom (s : EngineState) (h : Reachable s) : GeometryStandard s := by
  induction h with
  | init tc bc s hnew => exact engineNew_geom tc bc s hnew
  | player s s' pid pname _ hstep ih =>
    exact geometryStandard_of_sameGeom ih (addPlayer_geom s pid pname s' hstep)
  | start s s' fid _ hstep ih =>
    exact geometryStandard_of_sameGeom ih (startGame_geom s fid s' hstep)
  | place s s' pid nid _ hstep ih =>
    exact geometryStandard_of_sameGeom ih (placeInitialSettlement_geom s pid nid s' hstep)
  | roll s s' total _ hstep ih =>
    exact geometryStandard_of_sameGeom ih (rollAndDistribute_geom s total s' hstep)
  | next s s' _ hstep ih =>
    exact geometryStandard_of_sameGeom ih (nextPlayer_geom s s' hstep)
  | op s s' o _ hstep ih =>
    exact geometryStandard_of_sameGeom ih (applyOp_geom s o s' hstep)

/-- The state produced by the constructor before `importState` overwrites
the snapshotted fields. -/
def engineSeed (tiles : List Tile) (bank : ResourceBundle) (rob : TileId) : EngineState :=
  { tiles := tiles, bank := bank, players := [], currentPlayerOrder := [],
    currentIdx := 0, robberOn := rob, turn := 0, phase := .setupPlacement,
    setupRound := 1, setupDirection := 1,
    nodeOwnership := standard19Nodes.map (fun n => (n.id, none)),
    nodeAdjacentTiles := standard19Nodes.map (fun n => (n.id, n.adjacentTiles)),
    nodeNeighbors := standard19Nodes.map (fun n => (n.id, n.neighborNodes)),
    nodeAnchors := standard19Nodes.map (fun n => (n.id, n.anchorTileId, n.cornerIndex)),
    tileToNodes := buildTileToNodes (standard19Nodes.map (fun n => (n.id, n.adjacentTiles))) }

theorem engineNew_some (tiles : List Tile) (bank : ResourceBundle) (hne : tiles ≠ []) :
    ∃ rob, engineNew (some tiles) (some bank) = some (engineSeed tiles bank rob) := by
  cases hf : tiles.find? (fun t => t.resource == ResourceType.Desert) with
  | some t =>
    refine ⟨t.id, ?_⟩
    unfold engineNew engineSeed
    dsimp only
    rw [show (some tiles).getD standard19Tiles = tiles from rfl, hf]
    rfl
  | none =>
    cases ht : tiles with
    | nil => exact absurd ht hne
    | cons t0 rest =>
      refine ⟨t0.id, ?_⟩
      unfold engineNew engineSeed
      dsimp only
      rw [ht] at hf
      rw [show (some (t0 :: rest)).getD standard19Tiles = t0 :: rest from rfl, hf]
      rfl

/-- Importing an exported snapshot reproduces the very state it was taken
from, provided the state carries the standard geometry (which the
constructor reseeds rather than snapshots) and a nonempty tile list. -/
theorem importState_exportState (s : EngineState) (hg : GeometryStandard s) :
    importState (exportState s) = some s := by
  obtain ⟨h1, h2, h3, h4, hne⟩ := hg
  obtain ⟨rob, hrob⟩ := engineNew_some s.tiles s.bank hne
  unfold importState exportState
  dsimp only
  rw [hrob, Option.map_some']
  obtain ⟨st, sb, sp, sord, sidx, srob, stn, sph, ssr, ssd, sno, snat, snn, sna, sttn⟩ := s
  dsimp only at h1 h2 h3 h4
  simp only [Option.some.injEq, EngineState.mk.injEq, engineSeed, h1, h2, h3, h4,
    and_true, true_and, List.map_map]
  exact List.map_id sp

/-- Claim C7: for every reachable engine state, importing the exported
snapshot yields exactly the original state, hence an engine with the same
public view on which every subsequent operation — placement, building,
rolling, robber moves, trades, discards, `nextPlayer` — returns the same
result and the same next state as on the original engine. -/
theorem snapshot_roundtrip (s : EngineState) (hs : Reachable s) :
    importState (exportState s) = some s ∧
    ∀ e, importState (exportState s) = some e →
      getPublicState e = getPublicState s ∧
      (∀ pid nid, placeInitialSettlement e pid nid = placeInitialSettlement s pid nid) ∧
      (∀ pid nid, buildSettlementAt e pid nid = buildSettlementAt s pid nid) ∧
      nextPlayer e = nextPlayer s ∧
      (∀ o, applyOp e o = applyOp s o) ∧
      (∀ total, rollAndDistribute e total = rollAndDistribute s total) := by
  have h := importState_exportState s (reachable_geom s hs)
  refine ⟨h, fun e he => ?_⟩
  rw [h] at he
  injection he with he
  subst he
  exact ⟨rfl, fun _ _ => rfl, fun _ _ => rfl, rfl, fun _ => rfl, fun _ => rfl⟩

/-- Witness for C7 at the freshly constructed standard engine. -/
theorem snapshot_roundtrip_witness :
    importState (exportState engineStdLit) = some engineStdLit ∧
    getPublicState engineStdLit = getPublicState engineStdLit :=
  have hr : Reachable engineStdLit := Reachable.init none none engineStdLit engineNew_default
  ⟨(snapshot_roundtrip engineStdLit hr).1,
   ((snapshot_roundtrip engineStdLit hr).2 engineStdLit
     (snapshot_roundtrip engineStdLit hr).1).1⟩

/-! ## Claim C8: geometry node uniqueness -/

/-- Claim C8: on the fixed 19-tile radius-2 layout the node builder
produces exactly 54 nodes with pairwise distinct ids, every node touches
between 1 and 3 distinct tiles, and the neighbor relation is symmetric. -/
theorem geometry_node_graph :
    standard19Nodes.length = 54 ∧
    (standard19Nodes.map NodeDef.id).Nodup ∧
    (∀ n ∈ standard19Nodes,
      1 ≤ n.adjacentTiles.length ∧ n.adjacentTiles.length ≤ 3 ∧ n.adjacentTiles.Nodup) ∧
    (∀ a ∈ standard19Nodes, ∀ b ∈ standard19Nodes,
      (b.id ∈ a.neighborNodes ↔ a.id ∈ b.neighborNodes)) := by
  rw [standard19Nodes_eq]
  decide

/-! ## Claim C9: `moveRobber` works in every phase -/

theorem stealCore_frame (s1 : EngineState) (stealFrom : Option String) (pick : Nat) :
    (stealCore s1 stealFrom pick).robberOn = s1.robberOn ∧
    (stealCore s1 stealFrom pick).phase = s1.phase := by
  unfold stealCore
  split
  · split
    · dsimp only
      split
      · exact ⟨rfl, rfl⟩
      · exact ⟨rfl, rfl⟩
    · exact ⟨rfl, rfl⟩
  · exact ⟨rfl, rfl⟩

theorem stealCore_steals (s1 : EngineState) (stealFrom : Option String) (pick : Nat)
    (victim thief : PlayerState)
    (htr : truthyOwner stealFrom = true)
    (hv : findPlayer s1.players (stealFrom.getD "") = some victim)
    (ht : currentPlayerOf s1 = some thief)
    (hne : (allCards victim.resources).length ≠ 0) :
    ∃ k, 1 ≤ victim.resources.get k ∧
      stealCore s1 stealFrom pick =
        { s1 with players := (updateFirst (updateFirst s1.players victim.id (decRes k)) thief.id (incRes k)) } := by
  refine ⟨(allCards victim.resources).getD (pick % (allCards victim.resources).length) .Brick,
    allCards_getD_pos victim.resources pick hne, ?_⟩
  unfold stealCore
  rw [if_pos htr, hv, ht]
  dsimp only
  rw [if_neg hne]

theorem stealCore_skip (s1 : EngineState) (stealFrom : Option String) (pick : Nat)
    (htr : truthyOwner stealFrom = false) : stealCore s1 stealFrom pick = s1 := by
  unfold stealCore
  rw [if_neg (by rw [htr]; exact Bool.false_ne_true)]

/-- Claim C9: with a known target tile, `moveRobber` succeeds in every
phase. It always moves the robber marker to the tile; when the phase was
not `awaitingRobberMove` the phase is left unchanged (only from
`awaitingRobberMove` does it move to `awaitingActions`); and when a truthy
victim id naming a registered player with a nonempty hand is supplied
while a current player exists, one card (of a kind the victim holds) still
moves from the victim to the current player. -/
theorem moveRobber_any_phase (s : EngineState) (toTile : TileId) (stealFrom : Option String)
    (pick : Nat) (hknown : (s.tiles.find? (fun t => t.id == toTile)).isSome = true) :
    ∃ s', moveRobber s toTile stealFrom pick = .ok s' ∧
      s'.robberOn = toTile ∧
      (s.phase ≠ .awaitingRobberMove → s'.phase = s.phase) ∧
      (s.phase = .awaitingRobberMove → s'.phase = .awaitingActions) ∧
      (∀ victim thief,
        truthyOwner stealFrom = true →
        findPlayer s.players (stealFrom.getD "") = some victim →
        currentPlayerOf s = some thief →
        (allCards victim.resources).length ≠ 0 →
        ∃ k, 1 ≤ victim.resources.get k ∧
          s'.players = updateFirst (updateFirst s.players victim.id (decRes k))
            thief.id (incRes k)) ∧
      (truthyOwner stealFrom = false → s'.players = s.players) := by
  have hnn : ¬ ((s.tiles.find? (fun t => t.id == toTile)).isNone = true) := by
    cases hfind : s.tiles.find? (fun t => t.id == toTile) with
    | none => rw [hfind] at hknown; cases hknown
    | some t => simp [hfind]
  unfold moveRobber
  rw [if_neg hnn]
  dsimp only
  refine ⟨_, rfl, ?_, ?_, ?_, ?_, ?_⟩
  · obtain ⟨hrob, -⟩ := stealCore_frame { s with robberOn := toTile } stealFrom pick
    split
    · exact hrob
    · exact hrob
  · intro hph
    rw [if_neg (by simpa using hph)]
    exact (stealCore_frame { s with robberOn := toTile } stealFrom pick).2
  · intro hph
    rw [if_pos (by simpa using hph)]
  · intro victim thief htr hv ht hne
    obtain ⟨k, hk, hsteal⟩ := stealCore_steals { s with robberOn := toTile } stealFrom pick
      victim thief htr hv ht hne
    refine ⟨k, hk, ?_⟩
    split
    · rw [hsteal]
    · rw [hsteal]
  · intro htr
    rw [stealCore_skip { s with robberOn := toTile } stealFrom pick htr]
    split
    · rfl
    · rfl

def c9State : EngineState := { c1WitnessState with currentIdx := 1 }

/-- Witness for C9: in phase `awaitingRoll` (not `awaitingRobberMove`) the
robber still moves and current player "b" still steals a card from "a". -/
theorem moveRobber_any_phase_witness :
    ∃ s', moveRobber c9State "T1" (some "a") 0 = .ok s' ∧
      s'.robberOn = "T1" ∧ s'.phase = c9State.phase ∧
      ∃ k, 1 ≤ ((⟨9, 0, 0, 0, 0, 0⟩ : ResourceBundle).get k) ∧
        s'.players = updateFirst (updateFirst c9State.players "a" (decRes k)) "b" (incRes k) := by
  obtain ⟨s', hok, hrob, hph, -, hsteal, -⟩ :=
    moveRobber_any_phase c9State "T1" (some "a") 0 (by decide)
  obtain ⟨k, hk, hpl⟩ := hsteal ⟨"a", "A", ⟨9, 0, 0, 0, 0, 0⟩, [], 0⟩
    ⟨"b", "B", emptyBundle, [], 0⟩ (by decide) (by decide) (by decide) (by decide)
  exact ⟨s', hok, hrob, hph (by decide), k, hk, hpl⟩

/-! ## Claim C10: `placeInitialSettlement` ignores the current player -/

theorem findPlayer_updateFirst_self (l : List PlayerState) (pid : String)
    (f : PlayerState → PlayerState) (p : PlayerState)
    (hf : (f p).id = p.id) (h : findPlayer l pid = some p) :
    findPlayer (updateFirst l pid f) pid = some (f p) := by
  induction l with
  | nil => cases h
  | cons q rest ih =>
    by_cases hq : q.id = pid
    · rw [findPlayer, if_pos hq] at h
      injection h with h
      subst h
      rw [updateFirst, if_pos hq, findPlayer, if_pos (hf.trans hq)]
    · rw [findPlayer, if_neg hq] at h
      rw [updateFirst, if_neg hq, findPlayer, if_neg hq]
      exact ih h

/-- Claim C10: `placeInitialSettlement` never consults the current
player. In `setupPlacement`, any registered player id placed on a free
node with no owned neighbor succeeds — whoever's snake slot it is — the
named player (not the scheduled one) receives the node and one victory
point, and the snake pointer still advances exactly as after a scheduled
placement. -/
theorem place_ignores_current_player (s : EngineState) (pid : String) (nid : NodeId)
    (hph : s.phase = .setupPlacement)
    (hp : (findPlayer s.players pid).isSome = true)
    (hown : ownerNN s nid = none)
    (hnb : ∀ m ∈ neighborsOf s nid, ownerNN s m = none) :
    ∃ s', placeInitialSettlement s pid nid = .ok s' ∧
      ownerNN s' nid = some pid ∧
      (∀ p, findPlayer s.players pid = some p →
        findPlayer s'.players pid = some { p with
          settlements := addSet p.settlements nid,
          victoryPoints := p.victoryPoints + 1 }) ∧
      (if s.setupRound = 1 then
         if s.currentIdx = s.currentPlayerOrder.length - 1 then
           s'.setupRound = 2 ∧ s'.currentIdx = s.currentIdx ∧ s'.phase = .setupPlacement
         else s'.setupRound = s.setupRound ∧ s'.currentIdx = s.currentIdx + 1 ∧
           s'.phase = .setupPlacement
       else
         if s.currentIdx = 0 then
           s'.setupRound = s.setupRound ∧ s'.currentIdx = 0 ∧ s'.phase = .awaitingRoll
         else s'.setupRound = s.setupRound ∧ s'.currentIdx = s.currentIdx - 1 ∧
           s'.phase = .setupPlacement) := by
  obtain ⟨s', hok⟩ := place_ok_of s pid nid hph hp hown hnb
  obtain ⟨-, -, -, -, hno, -, -, hpl, -, -, -, hsnake⟩ := place_ok_spec s pid nid s' hok
  refine ⟨s', hok, ?_, ?_, hsnake⟩
  · rw [ownerNN, hno, lookup_setA, if_pos rfl]
    rfl
  · intro p hfind
    rw [hpl]
    exact findPlayer_updateFirst_self s.players pid _ p rfl hfind

/-- Witness for C10: with the snake pointing at "a" (index 0 of the
order), player "b" places successfully and gets the node and the point. -/
theorem place_ignores_current_player_witness :
    curId c5State = "a" ∧
    ∃ s', placeInitialSettlement c5State "b" "n1" = .ok s' ∧
      ownerNN s' "n1" = some "b" ∧
      findPlayer s'.players "b"
        = some ⟨"b", "B", emptyBundle, ["n1"], 1⟩ := by
  refine ⟨by decide, ?_⟩
  obtain ⟨s', hok, hown, hcred, -⟩ :=
    place_ignores_current_player c5State "b" "n1" (by decide) (by decide) (by decide)
      (by decide)
  exact ⟨s', hok, hown, hcred ⟨"b", "B", emptyBundle, [], 0⟩ (by decide)⟩
